import Mathlib

/-! # kops: OIDC issuer discovery and the GCE `Instance` task

A shallow embedding of `pkg/model/issuerdiscovery.go` and
`upup/pkg/fi/cloudup/gcetasks/instance.go`, followed by the properties proved
about it.

Conventions of the embedding.

* A Go pointer, slice or map field is an `Option`: `none` is Go's `nil`.
* A Go `map` is an association list; the order of the list is the order in
  which one `range` loop visits the map (Go leaves that order unspecified).
* A function that may return a Go `error`, dereference `nil` or terminate the
  process returns `Except Fault _`.
* Library code that is not part of the repository (JSON string quoting, the
  PKIX marshaller, SHA-256, the cloud API) is a field of an environment record.
-/

/-- The ways in which a call can fail to return a value. -/
inductive Fault where
  /-- A Go `error` value, identified by its message. -/
  | error (msg : String)
  /-- A nil pointer dereference (run-time panic). -/
  | nilDereference
  /-- Process termination by `klog.Exitf` or `klog.Fatalf`. -/
  | exit (msg : String)
  /-- A failed type assertion `x.(T)` (run-time panic). -/
  | conversion
  deriving DecidableEq, Repr

/-- Dereference of a Go pointer: `*p`. -/
def deref {α : Type} : Option α → Except Fault α
  | some a => .ok a
  | none => .error .nilDereference

namespace model

/-! ## `buildDiscoveryJSON` -/

/-- The struct `oidcDiscovery`. -/
structure oidcDiscovery where
  Issuer : String
  JWKSURI : String
  AuthorizationEndpoint : String
  ResponseTypes : List String
  SubjectTypes : List String
  SigningAlgs : List String
  ClaimsSupported : List String
  deriving DecidableEq, Repr

/-- A JSON value of the kinds that occur in `oidcDiscovery`. -/
inductive JSONValue where
  | string (s : String)
  | strings (xs : List String)
  deriving DecidableEq, Repr

/-- The JSON object that `encoding/json` builds for an `oidcDiscovery`: one
member per struct field, named by its `json:"..."` tag, in declaration
order. -/
def oidcDiscovery.members (d : oidcDiscovery) : List (String × JSONValue) :=
  [ ("issuer", .string d.Issuer),
    ("jwks_uri", .string d.JWKSURI),
    ("authorization_endpoint", .string d.AuthorizationEndpoint),
    ("response_types_supported", .strings d.ResponseTypes),
    ("subject_types_supported", .strings d.SubjectTypes),
    ("id_token_signing_alg_values_supported", .strings d.SigningAlgs),
    ("claims_supported", .strings d.ClaimsSupported) ]

/-- Text of one JSON value under `json.MarshalIndent(_, "", "")`: every
element of a non-empty array starts a new line. `quote` is the JSON string
encoder of `encoding/json`. -/
def JSONValue.render (quote : String → String) : JSONValue → String
  | .string s => quote s
  | .strings [] => "[]"
  | .strings xs => "[\n" ++ ",\n".intercalate (xs.map quote) ++ "\n]"

/-- Text of a JSON object under `json.MarshalIndent(_, "", "")`. -/
def marshalIndentObject (quote : String → String) (ms : List (String × JSONValue)) : String :=
  match ms with
  | [] => "\x7b\x7d"
  | _ => "\x7b\n" ++ ",\n".intercalate (ms.map fun m => quote m.1 ++ ": " ++ m.2.render quote)
           ++ "\n\x7d"

/-- The function `buildDiscoveryJSON`. -/
def buildDiscoveryJSON (quote : String → String) (issuerURL : String) : Except Fault String :=
  let d : oidcDiscovery :=
    { Issuer := issuerURL
      JWKSURI := issuerURL ++ "/openid/v1/jwks"
      AuthorizationEndpoint := "urn:kubernetes:programmatic_authorization"
      ResponseTypes := ["id_token"]
      SubjectTypes := ["public"]
      SigningAlgs := ["RS256"]
      ClaimsSupported := ["sub", "iss"] }
  .ok (marshalIndentObject quote d.members)

/-! ## `OIDCKeys.Open` -/

/-- The alphabet of `base64.RawURLEncoding` (`encodeURL` in `encoding/base64`). -/
def encodeURL : List Char :=
  "ABCDEFGHIJKLMNOPQRSTUVWXYZabcdefghijklmnopqrstuvwxyz0123456789-_".toList

/-- The character that encodes the six-bit value `v & 0x3F`. -/
def encodeURLChar (v : Nat) : Char :=
  encodeURL.getD (v % 64) 'A'

/-- Encoding with `base64.RawURLEncoding` (no padding), on bytes given as
naturals below 256: each full group of three bytes gives four characters, a
remainder of one byte gives two and a remainder of two bytes gives three. -/
def rawURLEncode : List Nat → List Char
  | [] => []
  | [a] =>
    let val := (a % 256) * 65536
    [encodeURLChar (val / 262144), encodeURLChar (val / 4096)]
  | [a, b] =>
    let val := (a % 256) * 65536 + (b % 256) * 256
    [encodeURLChar (val / 262144), encodeURLChar (val / 4096), encodeURLChar (val / 64)]
  | a :: b :: c :: rest =>
    let val := (a % 256) * 65536 + (b % 256) * 256 + c % 256
    encodeURLChar (val / 262144) :: encodeURLChar (val / 4096) :: encodeURLChar (val / 64)
      :: encodeURLChar val :: rawURLEncode rest

/-- The call `base64.RawURLEncoding.EncodeToString`. -/
def EncodeToString (src : List Nat) : String :=
  String.mk (rawURLEncode src)

/-- The subject of a certificate (`pkix.Name`), reduced to the field read here. -/
structure pkixName where
  CommonName : String
  deriving DecidableEq, Repr

/-- The type `pki.Certificate`, reduced to the fields read here; `PK` is the
type of public keys (`crypto.PublicKey`). -/
structure Certificate (PK : Type) where
  Subject : pkixName
  PublicKey : PK
  deriving DecidableEq, Repr

/-- The type `fi.KeysetItem`; a timestamp is a natural number. -/
structure KeysetItem (PK : Type) where
  Id : String
  DistrustTimestamp : Option Nat
  Certificate : Option (Certificate PK)
  deriving DecidableEq, Repr

/-- The type `fi.Keyset`; `Items` is a Go map keyed by item id, listed in
the order in which the loop of `Open` visits it. -/
structure Keyset (PK : Type) where
  Items : List (KeysetItem PK)
  deriving DecidableEq, Repr

/-- The task `fitasks.Keypair`, reduced to what `Keyset()` returns. -/
structure Keypair (PK : Type) where
  keyset : Option (Keyset PK)
  deriving DecidableEq, Repr

/-- The method `(*fitasks.Keypair).Keyset`. -/
def Keypair.Keyset {PK : Type} (e : Keypair PK) : Option (model.Keyset PK) :=
  e.keyset

/-- The type `jose.JSONWebKey`, reduced to the fields that `Open` sets. -/
structure JSONWebKey (PK : Type) where
  Key : PK
  KeyID : String
  Algorithm : String
  Use : String
  deriving DecidableEq, Repr

/-- The struct `KeyResponse`. -/
structure KeyResponse (PK : Type) where
  Keys : List (JSONWebKey PK)
  deriving DecidableEq, Repr

/-- The struct `OIDCKeys`. -/
structure OIDCKeys (PK : Type) where
  SigningKey : Keypair PK
  deriving DecidableEq, Repr

/-- The library functions that `Open` calls. -/
structure KeysEnv (PK : Type) where
  /-- The function `x509.MarshalPKIXPublicKey`: DER bytes or an error message. -/
  MarshalPKIXPublicKey : PK → Except String (List Nat)
  /-- The digest `crypto.SHA256` of a byte string. -/
  SHA256 : List Nat → List Nat
  /-- The call `json.MarshalIndent(keyResponse, "", "")`. -/
  MarshalIndent : KeyResponse PK → Except String String

/-- Insertion of one element into a slice ordered by `less`, after the
elements that are not greater. -/
def insertByLess {α : Type} (less : α → α → Bool) (x : α) : List α → List α
  | [] => [x]
  | y :: ys => if less x y then x :: y :: ys else y :: insertByLess less x ys

/-- The call `sort.Slice(xs, less)`, as an insertion sort. Go does not say
which sorting algorithm it runs nor how it orders elements that tie. -/
def sortSlice {α : Type} (less : α → α → Bool) : List α → List α
  | [] => []
  | x :: xs => insertByLess less x (sortSlice less xs)

/-- The key identifier computed in `Open` from the DER bytes of a public key. -/
def keyID {PK : Type} (env : KeysEnv PK) (publicKeyDERBytes : List Nat) : String :=
  EncodeToString (env.SHA256 publicKeyDERBytes)

/-- The loop of `Open` over `keyset.Items`, started with the keys
collected so far. -/
def Open.loop {PK : Type} (env : KeysEnv PK) :
    List (KeysetItem PK) → List (JSONWebKey PK) → Except Fault (List (JSONWebKey PK))
  | [], keys => .ok keys
  | item :: items, keys =>
    if item.DistrustTimestamp ≠ none then
      Open.loop env items keys
    else
      match item.Certificate with
      | none => Open.loop env items keys
      | some cert =>
        if cert.Subject.CommonName ≠ "service-account" then
          Open.loop env items keys
        else
          let publicKey := cert.PublicKey
          match env.MarshalPKIXPublicKey publicKey with
          | .error err =>
            .error (.error ("failed to serialize public key to DER format: " ++ err))
          | .ok publicKeyDERBytes =>
            Open.loop env items
              (keys ++ [{ Key := publicKey
                          KeyID := keyID env publicKeyDERBytes
                          Algorithm := "RS256"
                          Use := "sig" }])

/-- The slice `keys` of `Open` when it is handed to `json.MarshalIndent`:
collected by the loop, then sorted by `KeyID`. -/
def Open.keys {PK : Type} (env : KeysEnv PK) (o : OIDCKeys PK) :
    Except Fault (List (JSONWebKey PK)) :=
  match o.SigningKey.Keyset with
  | none => .error .nilDereference
  | some keyset =>
    match Open.loop env keyset.Items [] with
    | .error f => .error f
    | .ok keys => .ok (sortSlice (fun a b => decide (a.KeyID < b.KeyID)) keys)

/-- An item that the loop of `Open` does not skip: no distrust timestamp, and
a certificate whose subject common name is `service-account`. -/
def KeysetItem.signing {PK : Type} (item : KeysetItem PK) : Bool :=
  item.DistrustTimestamp.isNone &&
    match item.Certificate with
    | some cert => cert.Subject.CommonName == "service-account"
    | none => false

/-- The key that the loop of `Open` appends for an item, if it appends one. -/
def Open.entry {PK : Type} (env : KeysEnv PK) (item : KeysetItem PK) : Option (JSONWebKey PK) :=
  if item.signing then
    match item.Certificate with
    | some cert =>
      match env.MarshalPKIXPublicKey cert.PublicKey with
      | .ok publicKeyDERBytes =>
        some { Key := cert.PublicKey
               KeyID := keyID env publicKeyDERBytes
               Algorithm := "RS256"
               Use := "sig" }
      | .error _ => none
    | none => none
  else none

/-- The method `(*OIDCKeys).Open`; the reader it returns is given by its
content. -/
def Open {PK : Type} (env : KeysEnv PK) (o : OIDCKeys PK) : Except Fault String :=
  match Open.keys env o with
  | .error f => .error f
  | .ok keys =>
    match env.MarshalIndent { Keys := keys } with
    | .error err => .error (.error ("failed to marshal json: " ++ err))
    | .ok jsonBytes => .ok jsonBytes

end model

/-! ## The Google Compute API types (`google.golang.org/api/compute/v1`)

Each struct is reduced to the fields that `instance.go` reads or writes. -/

namespace compute

/-- The struct `compute.Tags`. -/
structure Tags where
  Items : Option (List String)
  deriving DecidableEq, Repr

/-- The struct `compute.Scheduling`. -/
structure Scheduling where
  AutomaticRestart : Option Bool := none
  OnHostMaintenance : String := ""
  Preemptible : Bool := false
  deriving DecidableEq, Repr

/-- The struct `compute.AccessConfig`. -/
structure AccessConfig where
  Type_ : String := ""
  NatIP : String := ""
  deriving DecidableEq, Repr

/-- The struct `compute.NetworkInterface`. -/
structure NetworkInterface where
  AccessConfigs : List AccessConfig := []
  Network : String := ""
  Subnetwork : String := ""
  StackType : String := ""
  deriving DecidableEq, Repr

/-- The struct `compute.ServiceAccount`. -/
structure ServiceAccount where
  Email : String := ""
  Scopes : List String := []
  deriving DecidableEq, Repr

/-- The struct `compute.AttachedDiskInitializeParams`. -/
structure AttachedDiskInitializeParams where
  SourceImage : String := ""
  DiskName : String := ""
  DiskType : String := ""
  DiskSizeGb : Int := 0
  deriving DecidableEq, Repr

/-- The struct `compute.AttachedDisk`. -/
structure AttachedDisk where
  InitializeParams : Option AttachedDiskInitializeParams := none
  Boot : Bool := false
  DeviceName : String := ""
  Index : Int := 0
  AutoDelete : Bool := false
  Mode : String := ""
  Type_ : String := ""
  Source : String := ""
  deriving DecidableEq, Repr

/-- The struct `compute.MetadataItems`. -/
structure MetadataItems where
  Key : String
  Value : Option String
  deriving DecidableEq, Repr

/-- The struct `compute.Metadata`. -/
structure Metadata where
  Items : List MetadataItems := []
  Fingerprint : String := ""
  deriving DecidableEq, Repr

/-- The struct `compute.Instance`. -/
structure Instance where
  CanIpForward : Bool := false
  Disks : List AttachedDisk := []
  MachineType : String := ""
  Metadata : Option Metadata := none
  Name : String := ""
  NetworkInterfaces : List NetworkInterface := []
  Scheduling : Option Scheduling := none
  ServiceAccounts : List ServiceAccount := []
  Tags : Option Tags := none
  Zone : String := ""
  deriving DecidableEq, Repr

/-- The struct `compute.Address`. -/
structure Address where
  Name : String
  deriving DecidableEq, Repr

/-- The struct `compute.Disk`. -/
structure Disk where
  SourceImage : String
  deriving DecidableEq, Repr

/-- The struct `compute.Operation`. -/
structure Operation where
  Name : String
  deriving DecidableEq, Repr

end compute

namespace gce

/-- An error returned by the cloud API; `notFound` is what `gce.IsNotFound`
reports about it. -/
structure APIError where
  msg : String
  notFound : Bool
  deriving DecidableEq, Repr

/-- The function `gce.IsNotFound`. -/
def IsNotFound (err : APIError) : Bool :=
  err.notFound

/-- The struct `gce.GoogleCloudURL`, reduced to the fields read here. -/
structure GoogleCloudURL where
  Project : String
  Name : String
  deriving DecidableEq, Repr

/-- The interface `gce.GCECloud`: the cloud API as `instance.go` calls it, each
call answering as a function of its arguments. -/
structure GCECloud where
  Project : String
  Region : String
  InstancesGet : String → String → String → Except APIError compute.Instance
  AddressesListWithFilter : String → String → String → Except APIError (List compute.Address)
  DisksGet : String → String → String → Except APIError compute.Disk
  InstancesInsert : String → String → compute.Instance → Except APIError compute.Operation
  InstancesSetMetadata :
    String → String → String → compute.Metadata → Except APIError compute.Operation
  WaitForOp : compute.Operation → Except APIError Unit

end gce

namespace gcetasks

/-! ## The task `Instance` and the tasks it refers to -/

/-- The task `Network` (declared in `network.go`), reduced to its name. -/
structure Network where
  Name : Option String
  deriving DecidableEq, Repr

/-- The task `Subnet` (declared in `subnet.go`), reduced to its name. -/
structure Subnet where
  Name : Option String
  deriving DecidableEq, Repr

/-- The task `Disk` (declared in `disk.go`), reduced to its name. -/
structure Disk where
  Name : Option String
  deriving DecidableEq, Repr

/-- The task `Address` (declared in `address.go`), reduced to the fields read
here. -/
structure Address where
  Name : Option String
  IPAddress : Option String := none
  deriving DecidableEq, Repr

/-- The task `ServiceAccount` (declared in `serviceaccount.go`), reduced to
the field read here. -/
structure ServiceAccount where
  Email : Option String
  deriving DecidableEq, Repr

/-- A value of the interface `fi.Resource`, given by what
`fi.ResourceAsString` returns for it. -/
inductive Resource where
  /-- A resource that renders to this string, such as `fi.NewStringResource`. -/
  | string (s : String)
  /-- A resource that cannot be read. -/
  | failing (err : String)
  deriving DecidableEq, Repr

/-- The function `fi.ResourceAsString`. -/
def ResourceAsString : Resource → Except String String
  | .string s => .ok s
  | .failing err => .error err

/-- The struct `Instance`. -/
structure Instance where
  Name : Option String := none
  Lifecycle : String := ""
  Network : Option Network := none
  Tags : Option (List String) := none
  Preemptible : Option Bool := none
  Image : Option String := none
  Disks : Option (List (String × Disk)) := none
  ServiceAccount : Option ServiceAccount := none
  CanIPForward : Option Bool := none
  IPAddress : Option Address := none
  Subnet : Option Subnet := none
  StackType : Option String := none
  Scopes : Option (List String) := none
  Metadata : Option (List (String × Resource)) := none
  Zone : Option String := none
  MachineType : Option String := none
  metadataFingerprint : String := ""
  deriving DecidableEq, Repr

/-- Functions of the repository that `instance.go` calls and that are declared
in other files, and the formatting verbs of `fmt`. -/
structure Deps where
  /-- The helper `lastComponent`. -/
  lastComponent : String → String
  /-- The function `gce.ParseGoogleCloudURL`. -/
  ParseGoogleCloudURL : String → Except String gce.GoogleCloudURL
  /-- The method `(*Network).URL`, whose receiver may be `nil`. -/
  NetworkURL : Option Network → String → Except Fault String
  /-- The method `(*Disk).URL`. -/
  DiskURL : Disk → String → Except Fault String
  /-- The verb `%q` on a string. -/
  quote : String → String
  /-- The verb `%v` on an `*Instance`. -/
  formatInstance : Instance → String

/-- The function `fi.ValueOf`: the value pointed to, or the zero value. -/
def ValueOf {α : Type} [Inhabited α] : Option α → α
  | some a => a
  | none => default

/-! ## Scope aliases -/

/-- The table `scopeAliases` as `init` fills it. -/
def scopeAliases : List (String × String) :=
  [ ("storage-ro", "https://www.googleapis.com/auth/devstorage.read_only"),
    ("storage-rw", "https://www.googleapis.com/auth/devstorage.read_write"),
    ("compute-ro", "https://www.googleapis.com/auth/compute.read_only"),
    ("compute-rw", "https://www.googleapis.com/auth/compute"),
    ("monitoring", "https://www.googleapis.com/auth/monitoring"),
    ("monitoring-write", "https://www.googleapis.com/auth/monitoring.write"),
    ("logging-write", "https://www.googleapis.com/auth/logging.write"),
    ("cloud-platform", "https://www.googleapis.com/auth/cloud-platform") ]

/-- The function `scopeToLongForm`. -/
def scopeToLongForm (s : String) : String :=
  match scopeAliases.find? (fun kv => kv.1 = s) with
  | some kv => kv.2
  | none => s

/-- The function `scopeToShortForm`; the loop visits the rows of the table in
the order in which they are listed. -/
def scopeToShortForm (s : String) : String :=
  match scopeAliases.find? (fun kv => kv.2 = s) with
  | some kv => kv.1
  | none => s

/-! ## Image and machine type URLs -/

/-- Pieces of a character list between occurrences of `sep`. -/
def splitChars (sep : Char) : List Char → List (List Char)
  | [] => [[]]
  | c :: cs =>
    if c = sep then [] :: splitChars sep cs
    else
      match splitChars sep cs with
      | [] => [[c]]
      | t :: ts => (c :: t) :: ts

/-- The call `strings.Split(s, sep)` for a separator of one character. -/
def Split (s : String) (sep : Char) : List String :=
  (splitChars sep s.toList).map String.mk

/-- The function `BuildMachineTypeURL`. -/
def BuildMachineTypeURL (project zone name : String) : String :=
  "https://www.googleapis.com/compute/v1/projects/" ++ project ++ "/zones/" ++ zone
    ++ "/machineTypes/" ++ name

/-- The function `BuildImageURL`; `klog.Exitf` ends the process. -/
def BuildImageURL (quote : String → String) (defaultProject nameSpec : String) :
    Except Fault String :=
  match Split nameSpec '/' with
  | [project, name] =>
    .ok ("https://www.googleapis.com/compute/v1/projects/" ++ project ++ "/global/images/" ++ name)
  | [name] =>
    .ok ("https://www.googleapis.com/compute/v1/projects/" ++ defaultProject
          ++ "/global/images/" ++ name)
  | _ => .error (.exit ("Cannot parse image spec: " ++ quote nameSpec))

/-- The function `ShortenImageURL`. -/
def ShortenImageURL (deps : Deps) (defaultProject imageURL : String) : Except String String :=
  match deps.ParseGoogleCloudURL imageURL with
  | .error err => .error err
  | .ok u =>
    if u.Project = defaultProject then .ok u.Name
    else .ok (u.Project ++ "/" ++ u.Name)

/-! ## `mapToGCE` -/

/-- The loop of `mapToGCE` over `e.Disks`. -/
def mapToGCE.disks (deps : Deps) (project : String) :
    List (String × Disk) → Except Fault (List compute.AttachedDisk)
  | [] => .ok []
  | (name, disk) :: rest => do
    let source ← deps.DiskURL disk project
    let more ← mapToGCE.disks deps project rest
    pure ({ Source := source, AutoDelete := false, Mode := "READ_WRITE", DeviceName := name }
            :: more)

/-- The loop of `mapToGCE` over `e.Scopes`. -/
def mapToGCE.scopes (declared : List String) : List String :=
  declared.map scopeToLongForm

/-- The loop of `mapToGCE` over `e.Metadata`. -/
def mapToGCE.metadataItems (deps : Deps) :
    List (String × Resource) → Except Fault (List compute.MetadataItems)
  | [] => .ok []
  | (key, r) :: rest =>
    match ResourceAsString r with
    | .error err =>
      .error (.error ("error rendering Instance metadata " ++ deps.quote key ++ ": " ++ err))
    | .ok v => do
      let more ← mapToGCE.metadataItems deps rest
      pure ({ Key := key, Value := some v } :: more)

/-- The block of `mapToGCE` that builds the network interface. -/
def mapToGCE.networkInterface (deps : Deps) (project : String)
    (ipAddressResolver : Address → Except Fault (Option String)) (e : Instance) :
    Except Fault compute.NetworkInterface := do
  let network ← deps.NetworkURL e.Network project
  let networkInterface : compute.NetworkInterface :=
    { AccessConfigs := [{ Type_ := "ONE_TO_ONE_NAT" }], Network := network }
  let networkInterface ←
    match e.IPAddress with
    | none => pure networkInterface
    | some ip =>
      match ipAddressResolver ip with
      | .error (.error err) =>
        throw (Fault.error ("unable to resolve IP for instance: " ++ err))
      | .error f => throw f
      | .ok none => throw (Fault.error "instance IP address has not yet been created")
      | .ok (some addr) =>
        pure { networkInterface with
                AccessConfigs := [{ Type_ := "ONE_TO_ONE_NAT", NatIP := addr }] }
  let networkInterface ←
    match e.Subnet with
    | none => pure networkInterface
    | some subnet => do
      let name ← deref subnet.Name
      pure { networkInterface with Subnetwork := name }
  match e.StackType with
  | none => pure networkInterface
  | some stackType => pure { networkInterface with StackType := stackType }

/-- The block of `mapToGCE` that builds the service accounts. -/
def mapToGCE.serviceAccounts (e : Instance) : List compute.ServiceAccount :=
  match e.ServiceAccount, e.Scopes with
  | some serviceAccount, some scopes =>
    [{ Email := ValueOf serviceAccount.Email, Scopes := mapToGCE.scopes scopes }]
  | _, _ => []

/-- The method `(*Instance).mapToGCE`. -/
def mapToGCE (deps : Deps) (project : String)
    (ipAddressResolver : Address → Except Fault (Option String)) (e : Instance) :
    Except Fault compute.Instance := do
  let zone ← deref e.Zone
  let scheduling : compute.Scheduling :=
    if ValueOf e.Preemptible then
      { OnHostMaintenance := "TERMINATE", Preemptible := true }
    else
      { AutomaticRestart := some true, OnHostMaintenance := "MIGRATE", Preemptible := false }
  let image ← deref e.Image
  let sourceImage ← BuildImageURL deps.quote project image
  let bootDisk : compute.AttachedDisk :=
    { InitializeParams := some { SourceImage := sourceImage }
      Boot := true
      DeviceName := "persistent-disks-0"
      Index := 0
      AutoDelete := true
      Mode := "READ_WRITE"
      Type_ := "PERSISTENT" }
  let moreDisks ← mapToGCE.disks deps project (e.Disks.getD [])
  let disks := bootDisk :: moreDisks
  let tags : Option compute.Tags :=
    match e.Tags with
    | some items => some { Items := some items }
    | none => none
  let networkInterface ← mapToGCE.networkInterface deps project ipAddressResolver e
  let serviceAccounts := mapToGCE.serviceAccounts e
  let metadataItems ← mapToGCE.metadataItems deps (e.Metadata.getD [])
  let canIPForward ← deref e.CanIPForward
  let machineType ← deref e.MachineType
  let name ← deref e.Name
  pure
    { CanIpForward := canIPForward
      Disks := disks
      MachineType := BuildMachineTypeURL project zone machineType
      Metadata := some { Items := metadataItems }
      Name := name
      NetworkInterfaces := [networkInterface]
      Scheduling := some scheduling
      ServiceAccounts := serviceAccounts
      Tags := tags }

/-- The method `(*Instance).isZero`: `reflect.DeepEqual` with the zero
`Instance`. -/
def Instance.isZero (i : Instance) : Bool :=
  decide (({} : Instance) = i)

/-- The method `(*Instance).CheckChanges`. -/
def CheckChanges (_a _e _changes : Option Instance) : Except Fault Unit :=
  .ok ()

/-! ## Calls to collaborators, and runs that record them -/

/-- A call that `instance.go` makes to the cloud API or to the URL parser of
package `gce`, with its arguments. -/
inductive Call where
  | InstancesGet (project zone name : String)
  | AddressesListWithFilter (project region filter : String)
  | DisksGet (project zone name : String)
  | ParseGoogleCloudURL (url : String)
  | InstancesInsert (project zone : String) (i : compute.Instance)
  | InstancesSetMetadata (project zone name : String) (metadata : compute.Metadata)
  | WaitForOp (op : compute.Operation)
  deriving DecidableEq, Repr

/-- The outcome of running a piece of code: what it returns, and the calls it
made, in order. -/
structure Traced (α : Type) where
  result : Except Fault α
  calls : List Call

/-- A step that returns without a call. -/
def Traced.pure {α : Type} (a : α) : Traced α :=
  ⟨.ok a, []⟩

/-- A step that fails without a call. -/
def Traced.fail {α : Type} (f : Fault) : Traced α :=
  ⟨.error f, []⟩

/-- Sequencing: the rest of the code runs only if the first part returned. -/
def Traced.bind {α β : Type} (x : Traced α) (rest : α → Traced β) : Traced β :=
  match x.result with
  | .error f => ⟨.error f, x.calls⟩
  | .ok a => ⟨(rest a).result, x.calls ++ (rest a).calls⟩

/-! ## `Find` -/

/-- The built-in `append(s, xs...)`: appending nothing to `nil` leaves `nil`. -/
def goAppend {α : Type} (s : Option (List α)) (xs : List α) : Option (List α) :=
  match s, xs with
  | none, [] => none
  | s, xs => some (s.getD [] ++ xs)

/-- The assignment `m[k] = v` on a Go map. -/
def mapInsert {β : Type} (m : List (String × β)) (k : String) (v : β) : List (String × β) :=
  if m.any (fun kv => kv.1 = k) then m.map (fun kv => if kv.1 = k then (k, v) else kv)
  else m ++ [(k, v)]

/-- The block of `Find` that reads the first network interface. -/
def Find.networkInterfaces (deps : Deps) (cloud : gce.GCECloud) (r : compute.Instance)
    (actual : Instance) : Traced Instance :=
  match r.NetworkInterfaces with
  | [] => .pure actual
  | ni :: _ =>
    let actual := { actual with
      Network := some { Name := some (deps.lastComponent ni.Network) }
      StackType := some ni.StackType }
    match ni.AccessConfigs with
    | [] => .pure actual
    | ac :: _ =>
      if ac.NatIP ≠ "" then
        let filter := "address eq " ++ ac.NatIP
        let call := Call.AddressesListWithFilter cloud.Project cloud.Region filter
        match cloud.AddressesListWithFilter cloud.Project cloud.Region filter with
        | .error err =>
          ⟨.error (.error ("error querying for address " ++ deps.quote ac.NatIP ++ ": "
              ++ err.msg)), [call]⟩
        | .ok (addr :: _) =>
          ⟨.ok { actual with IPAddress := some { Name := some addr.Name } }, [call]⟩
        | .ok [] =>
          ⟨.error (.error ("address not found " ++ deps.quote ac.NatIP ++ ": <nil>")), [call]⟩
      else .pure actual

/-- The two nested loops of `Find` over the scopes of the service accounts. -/
def Find.scopes (serviceAccounts : List compute.ServiceAccount) (scopes : Option (List String)) :
    Option (List String) :=
  serviceAccounts.foldl
    (fun scopes serviceAccount =>
      serviceAccount.Scopes.foldl
        (fun scopes scope => goAppend scopes [scopeToShortForm scope]) scopes)
    scopes

/-- The image of the boot disk, the body of the loop of `Find` over `r.Disks`
for `i == 0`. -/
def Find.bootDisk (deps : Deps) (cloud : gce.GCECloud) (zone : String)
    (disk : compute.AttachedDisk) (actual : Instance) : Traced Instance :=
  let source := disk.Source
  let name := deps.lastComponent source
  let get := Call.DisksGet cloud.Project zone name
  match cloud.DisksGet cloud.Project zone name with
  | .error err =>
    if gce.IsNotFound err then
      ⟨.error (.error ("disk not found " ++ deps.quote source ++ ": " ++ err.msg)), [get]⟩
    else
      ⟨.error (.error ("error querying for disk " ++ deps.quote source ++ ": " ++ err.msg)),
        [get]⟩
  | .ok d =>
    match ShortenImageURL deps cloud.Project d.SourceImage with
    | .error err =>
      ⟨.error (.error ("error parsing source image URL: " ++ err)),
        [get, .ParseGoogleCloudURL d.SourceImage]⟩
    | .ok image =>
      ⟨.ok { actual with Image := some image }, [get, .ParseGoogleCloudURL d.SourceImage]⟩

/-- The body of the loop of `Find` over `r.Disks` for `i != 0`, repeated
over the disks that remain. -/
def Find.dataDisks (deps : Deps) : List compute.AttachedDisk → Instance → Traced Instance
  | [], actual => .pure actual
  | disk :: rest, actual =>
    match deps.ParseGoogleCloudURL disk.Source with
    | .error _ =>
      ⟨.error (.error ("unable to parse disk source URL: " ++ deps.quote disk.Source)),
        [.ParseGoogleCloudURL disk.Source]⟩
    | .ok url =>
      Traced.bind
        ⟨.ok { actual with
                Disks := some (mapInsert (actual.Disks.getD []) disk.DeviceName
                  { Name := some url.Name }) },
          [.ParseGoogleCloudURL disk.Source]⟩
        (Find.dataDisks deps rest)

/-- The loop of `Find` over `r.Disks`. -/
def Find.disks (deps : Deps) (cloud : gce.GCECloud) (zone : String)
    (disks : List compute.AttachedDisk) (actual : Instance) : Traced Instance :=
  match disks with
  | [] => .pure actual
  | disk :: rest => (Find.bootDisk deps cloud zone disk actual).bind (Find.dataDisks deps rest)

/-- The block of `Find` that copies the metadata. -/
def Find.metadata (r : compute.Instance) (actual : Instance) : Instance :=
  match r.Metadata with
  | none => actual
  | some metadata =>
    { actual with
      Metadata := some (metadata.Items.foldl
        (fun m i => mapInsert m i.Key (Resource.string (ValueOf i.Value))) [])
      metadataFingerprint := metadata.Fingerprint }

/-- The part of `Find` that follows a successful `Instances.Get`. -/
def Find.snapshot (deps : Deps) (cloud : gce.GCECloud) (zone : String) (r : compute.Instance) :
    Traced Instance :=
  match r.Tags with
  | none => .fail .nilDereference
  | some tags =>
    let actual : Instance :=
      { Name := some r.Name
        Tags := goAppend none (tags.Items.getD [])
        Zone := some (deps.lastComponent r.Zone)
        MachineType := some (deps.lastComponent r.MachineType)
        CanIPForward := some r.CanIpForward
        Preemptible := r.Scheduling.map (fun scheduling => scheduling.Preemptible) }
    (Find.networkInterfaces deps cloud r actual).bind fun actual =>
      let actual := { actual with Scopes := Find.scopes r.ServiceAccounts actual.Scopes }
      let actual := { actual with Disks := some [] }
      (Find.disks deps cloud zone r.Disks actual).bind fun actual =>
        .pure (Find.metadata r actual)

/-- The method `(*Instance).Find`: `ok none` is the return `nil, nil`. -/
def Find (deps : Deps) (cloud : gce.GCECloud) (e : Instance) : Traced (Option Instance) :=
  match e.Zone, e.Name with
  | none, _ => .fail .nilDereference
  | some _, none => .fail .nilDereference
  | some zone, some name =>
    let get := Call.InstancesGet cloud.Project zone name
    match cloud.InstancesGet cloud.Project zone name with
    | .error err =>
      if gce.IsNotFound err then ⟨.ok none, [get]⟩
      else ⟨.error (.error ("error listing Instances: " ++ err.msg)), [get]⟩
    | .ok r =>
      Traced.bind ⟨.ok (), [get]⟩ fun _ =>
        (Find.snapshot deps cloud zone r).bind fun actual => .pure (some actual)

/-! ## `RenderGCE` and `RenderTerraform` -/

/-- The outcome of a render: what it returns, the calls it made, and the value
that `changes` points to when it returns. -/
structure Rendered where
  result : Except Fault Unit
  calls : List Call
  changes : Instance

/-- The address resolver that `RenderGCE` hands to `mapToGCE`. -/
def RenderGCE.ipAddressResolver (ip : Address) : Except Fault (Option String) :=
  .ok ip.IPAddress

/-- The method `(*Instance).RenderGCE`; `a = none` is a `nil` actual. -/
def RenderGCE (deps : Deps) (cloud : gce.GCECloud) (a : Option Instance) (e changes : Instance) :
    Rendered :=
  let project := cloud.Project
  match e.Zone with
  | none => ⟨.error .nilDereference, [], changes⟩
  | some zone =>
    match mapToGCE deps project RenderGCE.ipAddressResolver e with
    | .error f => ⟨.error f, [], changes⟩
    | .ok i =>
      match a with
      | none =>
        let insert := Call.InstancesInsert project zone i
        match cloud.InstancesInsert project zone i with
        | .error err => ⟨.error (.error ("error creating Instance: " ++ err.msg)), [insert], changes⟩
        | .ok _ => ⟨.ok (), [insert], changes⟩
      | some a =>
        let checkZero (calls : List Call) (changes : Instance) : Rendered :=
          if !changes.isZero then
            ⟨.error (.error ("cannot apply changes to Instance: " ++ deps.formatInstance changes)),
              calls, changes⟩
          else ⟨.ok (), calls, changes⟩
        if changes.Metadata ≠ none then
          match i.Metadata with
          | none => ⟨.error .nilDereference, [], changes⟩
          | some metadata =>
            let metadata := { metadata with Fingerprint := a.metadataFingerprint }
            let setMetadata := Call.InstancesSetMetadata project zone i.Name metadata
            match cloud.InstancesSetMetadata project zone i.Name metadata with
            | .error err =>
              ⟨.error (.error ("error setting metadata on instance: " ++ err.msg)),
                [setMetadata], changes⟩
            | .ok op =>
              match cloud.WaitForOp op with
              | .error err =>
                ⟨.error (.error ("error setting metadata on instance: " ++ err.msg)),
                  [setMetadata, .WaitForOp op], changes⟩
              | .ok _ =>
                checkZero [setMetadata, .WaitForOp op] { changes with Metadata := none }
        else checkZero [] changes

/-- The address resolver that `RenderTerraform` hands to `mapToGCE`. -/
def RenderTerraform.ipAddressResolver (ip : Address) : Except Fault (Option String) :=
  match ip.Name with
  | none => .error .nilDereference
  | some name => .ok (some ("$\x7bgoogle_compute_address." ++ name ++ ".address\x7d"))

/-- The first statements of `(*Instance).RenderTerraform`, up to the instance
`i` that `mapToGCE` returns; `project` is `t.Project`. -/
def RenderTerraform.i (deps : Deps) (project : String) (e : Instance) :
    Except Fault compute.Instance :=
  mapToGCE deps project RenderTerraform.ipAddressResolver e

/-- The struct `terraformInstanceAttachedDisk`. -/
structure terraformInstanceAttachedDisk where
  AutoDelete : Bool := false
  DeviceName : String := ""
  Type_ : String := ""
  Disk : String := ""
  Image : String := ""
  Scratch : Bool := false
  Size : Int := 0
  deriving DecidableEq, Repr

/-- The struct `terraformScheduling` (declared in `instancetemplate.go`),
reduced to the fields set here. -/
structure terraformScheduling where
  AutomaticRestart : Bool
  OnHostMaintenance : String
  Preemptible : Bool
  deriving DecidableEq, Repr

/-- The struct `terraformInstance`; `SA`, `NI` and `Lit` are the types
`*terraformTemplateServiceAccount`, `*terraformNetworkInterface` and
`*terraformWriter.Literal`. -/
structure terraformInstance (SA NI Lit : Type) where
  Name : String := ""
  CanIPForward : Bool := false
  MachineType : String := ""
  ServiceAccounts : List SA := []
  Scheduling : Option terraformScheduling := none
  Disks : List terraformInstanceAttachedDisk := []
  NetworkInterfaces : List NI := []
  Metadata : List (String × Lit) := []
  Tags : Option (List String) := none
  Zone : String := ""

/-- The target `t` of `RenderTerraform`, and the functions of the package that
`RenderTerraform` calls and that are declared in other files. -/
structure TerraformTarget (SA NI Lit : Type) where
  /-- The field `t.Project`. -/
  Project : String
  /-- The function `mapServiceAccountsToTerraform`. -/
  mapServiceAccountsToTerraform : List (Option ServiceAccount) → Option (List String) → List SA
  /-- The function `addNetworks`. -/
  addNetworks :
    Option String → Option Network → Option Subnet → List compute.NetworkInterface → List NI
  /-- The function `addMetadata`, applied to `t`. -/
  addMetadata : String → Option compute.Metadata → Except String (List (String × Lit))
  /-- The method `t.RenderResource`. -/
  RenderResource : String → String → terraformInstance SA NI Lit → Except String Unit

/-- The outcome of `RenderTerraform`: what it returns, and the resources that
it handed to `t.RenderResource`. -/
structure TerraformRendered (SA NI Lit : Type) where
  result : Except Fault Unit
  resources : List (String × String × terraformInstance SA NI Lit)

/-- The body of the loop of `RenderTerraform` over `i.Disks`. -/
def RenderTerraform.disk (deps : Deps) (d : compute.AttachedDisk) :
    terraformInstanceAttachedDisk :=
  let tfd : terraformInstanceAttachedDisk :=
    { AutoDelete := d.AutoDelete
      Scratch := d.Type_ == "SCRATCH"
      DeviceName := d.DeviceName
      Disk := deps.lastComponent d.Source }
  match d.InitializeParams with
  | none => tfd
  | some initializeParams =>
    { tfd with
      Disk := initializeParams.DiskName
      Image := initializeParams.SourceImage
      Type_ := initializeParams.DiskType
      Size := initializeParams.DiskSizeGb }

/-- The method `(*Instance).RenderTerraform`. -/
def RenderTerraform {SA NI Lit : Type} (deps : Deps) (t : TerraformTarget SA NI Lit)
    (e : Instance) : TerraformRendered SA NI Lit :=
  match RenderTerraform.i deps t.Project e with
  | .error f => ⟨.error f, []⟩
  | .ok i =>
    match i.Tags with
    | none => ⟨.error .nilDereference, []⟩
    | some tags =>
      let zone :=
        if i.Zone = "" then
          match e.Zone with
          | some zone => zone
          | none => i.Zone
        else i.Zone
      match t.addMetadata i.Name i.Metadata with
      | .error err => ⟨.error (.error err), []⟩
      | .ok metadata =>
        let tf : terraformInstance SA NI Lit :=
          { Name := i.Name
            CanIPForward := i.CanIpForward
            MachineType := deps.lastComponent i.MachineType
            Zone := zone
            Tags := tags.Items
            ServiceAccounts := t.mapServiceAccountsToTerraform [e.ServiceAccount] e.Scopes
            Disks := i.Disks.map (RenderTerraform.disk deps)
            NetworkInterfaces := t.addNetworks e.StackType e.Network e.Subnet i.NetworkInterfaces
            Metadata := metadata
            Scheduling := i.Scheduling.map fun scheduling =>
              { AutomaticRestart := ValueOf scheduling.AutomaticRestart
                OnHostMaintenance := scheduling.OnHostMaintenance
                Preemptible := scheduling.Preemptible } }
        match t.RenderResource "google_compute_instance" i.Name tf with
        | .error err => ⟨.error (.error err), [("google_compute_instance", i.Name, tf)]⟩
        | .ok _ => ⟨.ok (), [("google_compute_instance", i.Name, tf)]⟩

/-- The loop of `scopeToShortForm` when it visits the rows of the table in
the given order. -/
def scopeToShortForm.visiting (order : List (String × String)) (s : String) : String :=
  match order.find? (fun kv => kv.2 = s) with
  | some kv => kv.1
  | none => s

/-! ## Vocabulary of the properties -/

/-- The statements of `mapToGCE` that come before the call of the address
resolver complete: the zone and the image are set, the image URL is built, and
the URLs of the disks and of the network are resolved. -/
def mapToGCE.reachesResolver (deps : Deps) (project : String) (e : Instance) : Prop :=
  ∃ zone image sourceImage moreDisks network,
    e.Zone = some zone ∧ e.Image = some image ∧
    BuildImageURL deps.quote project image = .ok sourceImage ∧
    mapToGCE.disks deps project (e.Disks.getD []) = .ok moreDisks ∧
    deps.NetworkURL e.Network project = .ok network

/-- A lookup that did not yield what `Find` asked for: a cloud call that
returned an error, an address query that returned an error or no address, or
a URL that did not parse. -/
def Call.failed (deps : Deps) (cloud : gce.GCECloud) : Call → Bool
  | .InstancesGet project zone name =>
    match cloud.InstancesGet project zone name with
    | .error _ => true
    | .ok _ => false
  | .AddressesListWithFilter project region filter =>
    match cloud.AddressesListWithFilter project region filter with
    | .ok (_ :: _) => false
    | _ => true
  | .DisksGet project zone name =>
    match cloud.DisksGet project zone name with
    | .error _ => true
    | .ok _ => false
  | .ParseGoogleCloudURL url =>
    match deps.ParseGoogleCloudURL url with
    | .error _ => true
    | .ok _ => false
  | _ => false

/-- A run in which every failed lookup made the run return a Go error. -/
def Traced.ErrorOnFailure {α : Type} (deps : Deps) (cloud : gce.GCECloud) (t : Traced α) : Prop :=
  ∀ c ∈ t.calls, c.failed deps cloud = true → ∃ msg, t.result = .error (.error msg)

/-- A call that changes the backend: `Instances.Insert` or
`Instances.SetMetadata`. -/
def Call.mutating : Call → Bool
  | .InstancesInsert _ _ _ => true
  | .InstancesSetMetadata _ _ _ _ => true
  | _ => false

/-- Every field of a `Changes` value is empty, that is, unset. -/
def Instance.allFieldsEmpty (changes : Instance) : Prop :=
  changes.Name = none ∧ changes.Lifecycle = "" ∧ changes.Network = none ∧ changes.Tags = none ∧
  changes.Preemptible = none ∧ changes.Image = none ∧ changes.Disks = none ∧
  changes.ServiceAccount = none ∧ changes.CanIPForward = none ∧ changes.IPAddress = none ∧
  changes.Subnet = none ∧ changes.StackType = none ∧ changes.Scopes = none ∧
  changes.Metadata = none ∧ changes.Zone = none ∧ changes.MachineType = none ∧
  changes.metadataFingerprint = ""

end gcetasks

namespace gce

/-- Modelled from the spec: the function `gce.ParseGoogleCloudURL`, which is
declared in `upup/pkg/fi/cloudup/gce` and is not among the sources. An image
URL is parsed as
`https://www.googleapis.com/compute/v1/projects/<project>/global/images/<name>`;
any other string is an error. -/
def ParseGoogleCloudURL (u : String) : Except String GoogleCloudURL :=
  match gcetasks.Split u '/' with
  | ["https:", "", "www.googleapis.com", "compute", "v1", "projects", project, "global",
      "images", name] =>
    .ok { Project := project, Name := name }
  | _ => .error ("unknown URL: " ++ u)

end gce

/-! ## `IssuerDiscoveryModelBuilder.Build` -/

namespace vfs

/-- The type `vfs.S3Path`, given by what its methods return. -/
structure S3Path where
  /-- The method `GetHTTPsUrl(dualstack)`. -/
  GetHTTPsUrl : Bool → Except String String
  /-- The method `IsBucketPublic(ctx)`. -/
  IsBucketPublic : Except String Bool
  /-- The method `Bucket()`. -/
  Bucket : String

/-- The type `vfs.GSPath`, given by what its methods return. -/
structure GSPath where
  /-- The method `GetHTTPsUrl()`. -/
  GetHTTPsUrl : Except String String
  /-- The method `IsBucketPublic(ctx)`. -/
  IsBucketPublic : Except String Bool
  /-- The method `Bucket()`. -/
  Bucket : String

/-- A value of the interface `vfs.Path`, by its dynamic type. -/
inductive Path where
  | S3Path (discoveryStore : vfs.S3Path)
  | GSPath (discoveryStore : vfs.GSPath)
  | MemFSPath
  /-- A path of another type, with the name that `%T` prints. -/
  | other (typeName : String)

end vfs

namespace kops

/-- The struct `kops.ServiceAccountIssuerDiscoveryConfig`, reduced to the field
read here. -/
structure ServiceAccountIssuerDiscoveryConfig where
  DiscoveryStore : String
  deriving DecidableEq, Repr

/-- The struct `kops.KubeAPIServerConfig`, reduced to the field read here. -/
structure KubeAPIServerConfig where
  ServiceAccountIssuer : Option String
  deriving DecidableEq, Repr

/-- The struct `kops.ClusterSpec`, reduced to the fields read here;
`IsIPv6Only` is what the method of that name returns. -/
structure ClusterSpec where
  ServiceAccountIssuerDiscovery : Option ServiceAccountIssuerDiscoveryConfig
  KubeAPIServer : Option KubeAPIServerConfig
  IsIPv6Only : Bool
  deriving DecidableEq, Repr

/-- The struct `kops.Cluster`. -/
structure Cluster where
  Spec : ClusterSpec
  deriving DecidableEq, Repr

end kops

namespace model

/-- The struct `IssuerDiscoveryModelBuilder`; `Lifecycle` is a string type. -/
structure IssuerDiscoveryModelBuilder where
  Lifecycle : String
  Cluster : kops.Cluster
  deriving DecidableEq, Repr

/-- The contents of a `fitasks.ManagedFile` (a `fi.Resource`), of the two
kinds that `Build` creates. -/
inductive Contents (PK : Type) where
  /-- The resource `OIDCKeys`. -/
  | keys (o : OIDCKeys PK)
  /-- The resource `fi.NewBytesResource(data)`. -/
  | bytes (data : String)

/-- The task `fitasks.ManagedFile`, reduced to the fields that `Build` sets. -/
structure ManagedFile (PK : Type) where
  Contents : Contents PK
  Lifecycle : String
  Location : Option String
  Name : Option String
  Base : Option String
  PublicACL : Option Bool

/-- A task found in `c.Tasks`: a `*fitasks.Keypair` or a task of another
type. -/
inductive Task (PK : Type) where
  | keypair (task : Keypair PK)
  | other

/-- What `Build` uses of the builder context `c` and of package `vfs`; `Ctx`
is the type of the states of `c`. -/
structure BuildEnv (PK Ctx : Type) where
  /-- The lookup `c.Tasks[key]`; `none` when the key is not found. -/
  Tasks : Ctx → String → Option (Task PK)
  /-- The call `c.AddTask(task)`: the context with the task added, or the
  message with which it ends the process. -/
  AddTask : Ctx → ManagedFile PK → Except String Ctx
  /-- The call `vfs.Context.BuildVfsPath(path)`. -/
  BuildVfsPath : String → Except String vfs.Path
  /-- The JSON string encoder of `encoding/json`. -/
  quoteJSON : String → String
  /-- The verb `%q` on a string. -/
  quote : String → String

/-- The outcome of `Build`: what it returns, the tasks that it added to `c`,
in order, and the state of `c` when it returns. -/
structure Built (PK Ctx : Type) where
  result : Except Fault Unit
  added : List (ManagedFile PK)
  c : Ctx

/-- The type switch of `Build` on the discovery store: the value of
`publicFileACL` after it, or the error that it returns. -/
def Build.publicFileACL (b : IssuerDiscoveryModelBuilder) (serviceAccountIssuer : String) :
    vfs.Path → Except Fault (Option Bool)
  | .S3Path discoveryStore =>
    match discoveryStore.GetHTTPsUrl b.Cluster.Spec.IsIPv6Only with
    | .error err => .error (.error err)
    | .ok discoveryStoreURL =>
      if discoveryStoreURL = serviceAccountIssuer then
        match discoveryStore.IsBucketPublic with
        | .error err => .error (.error ("checking if bucket was public: " ++ err))
        | .ok isPublic => if !isPublic then .ok (some true) else .ok none
      else .ok none
  | .GSPath discoveryStore =>
    match discoveryStore.GetHTTPsUrl with
    | .error err => .error (.error err)
    | .ok discoveryStoreURL =>
      if discoveryStoreURL = serviceAccountIssuer then
        match discoveryStore.IsBucketPublic with
        | .error err => .error (.error ("checking if bucket was public: " ++ err))
        | .ok isPublic => if !isPublic then .ok (some true) else .ok none
      else .ok none
  | .MemFSPath => .ok none
  | .other typeName => .error (.error ("unhandled type " ++ typeName))

/-- The method `(*IssuerDiscoveryModelBuilder).Build`. -/
def Build {PK Ctx : Type} (env : BuildEnv PK Ctx) (b : IssuerDiscoveryModelBuilder) (c : Ctx) :
    Built PK Ctx :=
  match b.Cluster.Spec.ServiceAccountIssuerDiscovery with
  | none => ⟨.ok (), [], c⟩
  | some said =>
    if said.DiscoveryStore = "" then ⟨.ok (), [], c⟩
    else
      match env.Tasks c "Keypair/service-account" with
      | none => ⟨.error (.error "keypair/service-account task not found"), [], c⟩
      | some .other => ⟨.error .conversion, [], c⟩
      | some (.keypair skTask) =>
        let keys : OIDCKeys PK := { SigningKey := skTask }
        match b.Cluster.Spec.KubeAPIServer with
        | none => ⟨.error .nilDereference, [], c⟩
        | some kubeAPIServer =>
          match kubeAPIServer.ServiceAccountIssuer with
          | none => ⟨.error .nilDereference, [], c⟩
          | some serviceAccountIssuer =>
            match buildDiscoveryJSON env.quoteJSON serviceAccountIssuer with
            | .error f => ⟨.error f, [], c⟩
            | .ok discovery =>
              let discoveryStorePath := said.DiscoveryStore
              match env.BuildVfsPath discoveryStorePath with
              | .error err =>
                ⟨.error (.error ("building VFS path for " ++ env.quote discoveryStorePath
                    ++ ": " ++ err)), [], c⟩
              | .ok discoveryStore =>
                match Build.publicFileACL b serviceAccountIssuer discoveryStore with
                | .error f => ⟨.error f, [], c⟩
                | .ok publicFileACL =>
                  let keysFile : ManagedFile PK :=
                    { Contents := .keys keys
                      Lifecycle := b.Lifecycle
                      Location := some "openid/v1/jwks"
                      Name := some "keys.json"
                      Base := some discoveryStorePath
                      PublicACL := publicFileACL }
                  match env.AddTask c keysFile with
                  | .error msg => ⟨.error (.exit msg), [], c⟩
                  | .ok c₁ =>
                    let discoveryFile : ManagedFile PK :=
                      { Contents := .bytes discovery
                        Lifecycle := b.Lifecycle
                        Location := some ".well-known/openid-configuration"
                        Name := some "discovery.json"
                        Base := some discoveryStorePath
                        PublicACL := publicFileACL }
                    match env.AddTask c₁ discoveryFile with
                    | .error msg => ⟨.error (.exit msg), [keysFile], c₁⟩
                    | .ok c₂ => ⟨.ok (), [keysFile, discoveryFile], c₂⟩

end model

/-! ## Sample values -/

namespace model

/-- The JSON text of a string in which no character needs an escape: the
string between double quotes. -/
def quotePlain (s : String) : String :=
  "\"" ++ s ++ "\""

/-- A string without characters that `encoding/json` escapes: every character
is printable ASCII, and none is `"`, `\`, `<`, `>` or `&`. -/
def needsNoEscape (s : String) : Bool :=
  s.toList.all fun c =>
    decide (32 ≤ c.toNat ∧ c.toNat < 127) && !(['"', '\\', '<', '>', '&'].contains c)

/-- A sample environment: a public key is a number, its DER encoding is the
one byte of that number, the digest pads or cuts to 32 bytes, and the JSON
text lists the key identifiers. -/
def sampleEnv : KeysEnv Nat :=
  { MarshalPKIXPublicKey := fun n => .ok [n]
    SHA256 := fun b => (b ++ List.replicate 32 0).take 32
    MarshalIndent := fun r => .ok (",".intercalate (r.Keys.map fun k => k.KeyID)) }

/-- Sample items: two signing items, a distrusted one, one without certificate
and one for another subject. -/
def sampleItems : List (KeysetItem Nat) :=
  [ { Id := "2", DistrustTimestamp := none,
      Certificate := some { Subject := { CommonName := "service-account" }, PublicKey := 200 } },
    { Id := "1", DistrustTimestamp := none,
      Certificate := some { Subject := { CommonName := "service-account" }, PublicKey := 7 } },
    { Id := "0", DistrustTimestamp := some 1,
      Certificate := some { Subject := { CommonName := "service-account" }, PublicKey := 9 } },
    { Id := "3", DistrustTimestamp := none, Certificate := none },
    { Id := "4", DistrustTimestamp := none,
      Certificate := some { Subject := { CommonName := "kubernetes-ca" }, PublicKey := 11 } } ]

/-- A sample `OIDCKeys` over the sample items. -/
def sampleKeys : OIDCKeys Nat :=
  { SigningKey := { keyset := some { Items := sampleItems } } }

/-- The sample `OIDCKeys` with its items visited in the opposite order. -/
def sampleKeysReversed : OIDCKeys Nat :=
  { SigningKey := { keyset := some { Items := sampleItems.reverse } } }

/-- The text that `Open` returns on the sample. -/
def sampleOutput : String :=
  "BwAAAAAAAAAAAAAAAAAAAAAAAAAAAAAAAAAAAAAAAAA,yAAAAAAAAAAAAAAAAAAAAAAAAAAAAAAAAAAAAAAAAAA"

end model

namespace gcetasks

/-- Sample helpers: URLs are cut at `/`, a network and a disk are addressed by
name. -/
def sampleDeps : Deps :=
  { lastComponent := fun s => ((Split s '/').getLast?).getD ""
    ParseGoogleCloudURL := fun s =>
      match Split s '/' with
      | [_, _, _, _, _, _, project, _, _, name] => .ok { Project := project, Name := name }
      | _ => .error "unparsable URL"
    NetworkURL := fun network project =>
      match network with
      | some { Name := some name } => .ok (project ++ "/global/networks/" ++ name)
      | _ => .error .nilDereference
    DiskURL := fun disk project => .ok (project ++ "/disks/" ++ disk.Name.getD "")
    quote := fun s => "\"" ++ s ++ "\""
    formatInstance := fun i => i.Name.getD "" }

/-- The instance that the sample cloud holds. -/
def sampleRunning : compute.Instance :=
  { Name := "vm"
    Tags := some { Items := some ["node"] }
    NetworkInterfaces := [{ AccessConfigs := [{ NatIP := "192.0.2.1" }], Network := "p/net" }]
    Disks := [{ Source := "zones/z/disks/boot" }]
    ServiceAccounts := [{ Scopes := ["https://www.googleapis.com/auth/compute"] }]
    Metadata := some { Items := [{ Key := "k", Value := some "v" }], Fingerprint := "fp" } }

/-- A sample cloud: it holds the instance `vm`, whose boot disk is missing. -/
def sampleCloud : gce.GCECloud :=
  { Project := "proj"
    Region := "region"
    InstancesGet := fun _ _ name =>
      if name = "vm" then .ok sampleRunning else .error { msg := "not found", notFound := true }
    AddressesListWithFilter := fun _ _ _ => .ok [{ Name := "addr" }]
    DisksGet := fun _ _ _ => .error { msg := "no such disk", notFound := true }
    InstancesInsert := fun _ _ _ => .ok { Name := "operation-insert" }
    InstancesSetMetadata := fun _ _ _ _ => .ok { Name := "operation-metadata" }
    WaitForOp := fun _ => .ok () }

/-- A sample expected instance. -/
def sampleInstance : Instance :=
  { Name := some "vm"
    Zone := some "z"
    Image := some "img"
    Network := some { Name := some "net" }
    CanIPForward := some false
    MachineType := some "n1-standard-1"
    IPAddress := some { Name := some "ip", IPAddress := some "192.0.2.1" }
    ServiceAccount := some { Email := some "sa@example.com" }
    Scopes := some ["compute-rw", "https://example.com/custom"]
    Metadata := some [("k", .string "v")] }

end gcetasks

namespace model

/-- A sample bucket: served at the issuer URL and not public. -/
def sampleBucket : vfs.S3Path :=
  { GetHTTPsUrl := fun _ => .ok "https://bucket.s3.amazonaws.com/oidc"
    IsBucketPublic := .ok false
    Bucket := "bucket" }

/-- A sample builder context: its state is the list of the tasks added, and
it holds the service-account key pair except when the state is not empty. -/
def sampleBuildEnv : BuildEnv Nat (List (ManagedFile Nat)) :=
  { Tasks := fun c key =>
      if key = "Keypair/service-account" ∧ c.length = 0 then
        some (.keypair { keyset := some { Items := sampleItems } })
      else none
    AddTask := fun c task => .ok (c ++ [task])
    BuildVfsPath := fun path =>
      if path = "s3://bucket/oidc" then .ok (.S3Path sampleBucket)
      else if path = "memfs://oidc" then .ok .MemFSPath
      else .error "unknown scheme"
    quoteJSON := fun s => "\"" ++ s ++ "\""
    quote := fun s => "\"" ++ s ++ "\"" }

/-- A sample file task. -/
def sampleOtherFile : ManagedFile Nat :=
  { Contents := .bytes ""
    Lifecycle := "Sync"
    Location := none
    Name := some "other"
    Base := none
    PublicACL := none }

/-- A sample builder: the discovery store is the sample bucket, and the issuer
is its URL. -/
def sampleBuilder : IssuerDiscoveryModelBuilder :=
  { Lifecycle := "Sync"
    Cluster :=
      { Spec :=
          { ServiceAccountIssuerDiscovery := some { DiscoveryStore := "s3://bucket/oidc" }
            KubeAPIServer :=
              some { ServiceAccountIssuer := some "https://bucket.s3.amazonaws.com/oidc" }
            IsIPv6Only := false } } }

end model

namespace gcetasks

/-- The sample helpers, with the URL parser modelled from the spec. -/
def sampleDepsParsing : Deps :=
  { sampleDeps with ParseGoogleCloudURL := gce.ParseGoogleCloudURL }

/-- A sample Terraform target: service accounts are rendered as their scopes,
network interfaces as their network, metadata values as strings. -/
def sampleTarget : TerraformTarget (List String) String String :=
  { Project := "proj"
    mapServiceAccountsToTerraform := fun _ scopes => [scopes.getD []]
    addNetworks := fun _ _ _ networkInterfaces => networkInterfaces.map fun ni => ni.Network
    addMetadata := fun _ metadata =>
      .ok ((metadata.map fun m => m.Items.map fun item => (item.Key, ValueOf item.Value)).getD [])
    RenderResource := fun _ _ _ => .ok () }

/-- The sample instance without service account, with one declared scope. -/
def sampleNoServiceAccount : Instance :=
  { sampleInstance with ServiceAccount := none, Scopes := some ["compute-rw"] }

/-- The sample cloud with the boot disk of the instance, built from the image
`img` of the project. -/
def sampleCloudWithDisk : gce.GCECloud :=
  { sampleCloud with
    DisksGet := fun _ _ _ =>
      .ok { SourceImage := "https://www.googleapis.com/compute/v1/projects/proj/global/images/img" } }

/-- The snapshot that `Find` returns for the sample instance on the cloud that
has its boot disk. -/
def sampleFound : Instance :=
  match (Find sampleDeps sampleCloudWithDisk sampleInstance).result with
  | .ok (some actual) => actual
  | _ => {}

/-- The sample instance with tags. -/
def sampleTagged : Instance :=
  { sampleInstance with Tags := some ["node"] }

/-- The sample instance with an address that has no IP yet. -/
def sampleUnresolved : Instance :=
  { sampleInstance with IPAddress := some { Name := some "ip", IPAddress := none } }

end gcetasks

namespace gcetasks

/-- The instance that `mapToGCE` builds for the sample instance with the
resolver of `RenderGCE`. -/
def sampleMapped : compute.Instance :=
  match mapToGCE sampleDeps "proj" RenderGCE.ipAddressResolver sampleInstance with
  | .ok i => i
  | .error _ => {}

/-- A sample snapshot, found with the metadata fingerprint `fp`. -/
def sampleActual : Instance :=
  { sampleInstance with metadataFingerprint := "fp" }

end gcetasks

/-! # Properties -/

namespace model

/-! ## The discovery document -/

/-- The text that `buildDiscoveryJSON` returns, member by member. -/
theorem buildDiscoveryJSON_text (quote : String → String) (s : String) :
    buildDiscoveryJSON quote s = .ok
      ("\x7b\n" ++ quote "issuer" ++ ": " ++ quote s ++ ",\n"
        ++ quote "jwks_uri" ++ ": " ++ quote (s ++ "/openid/v1/jwks") ++ ",\n"
        ++ quote "authorization_endpoint" ++ ": "
        ++ quote "urn:kubernetes:programmatic_authorization" ++ ",\n"
        ++ quote "response_types_supported" ++ ": [\n" ++ quote "id_token" ++ "\n],\n"
        ++ quote "subject_types_supported" ++ ": [\n" ++ quote "public" ++ "\n],\n"
        ++ quote "id_token_signing_alg_values_supported" ++ ": [\n" ++ quote "RS256"
        ++ "\n],\n"
        ++ quote "claims_supported" ++ ": [\n" ++ quote "sub" ++ ",\n" ++ quote "iss"
        ++ "\n]\n\x7d") := by
  have h1 : ∀ t : String, ": " ++ ("[\n" ++ t) = ": [\n" ++ t := fun t => by
    rw [← String.append_assoc]
    rfl
  have h2 : ∀ t : String, "\n]" ++ (",\n" ++ t) = "\n],\n" ++ t := fun t => by
    rw [← String.append_assoc]
    rfl
  have h3 : "\n]" ++ "\n\x7d" = "\n]\n\x7d" := by decide
  simp only [buildDiscoveryJSON, marshalIndentObject, oidcDiscovery.members,
    JSONValue.render, List.map, String.intercalate, String.intercalate.go,
    String.append_assoc, h1, h2, h3]

set_option maxRecDepth 100000 in
/-- C1: for every issuer URL `s`, `buildDiscoveryJSON s` succeeds, and the text
that it returns is the JSON object with the members, in this order,
`issuer = s`, `jwks_uri = s ++ "/openid/v1/jwks"`,
`authorization_endpoint = "urn:kubernetes:programmatic_authorization"`,
`response_types_supported = ["id_token"]`, `subject_types_supported = ["public"]`,
`id_token_signing_alg_values_supported = ["RS256"]` and
`claims_supported = ["sub", "iss"]`, every name and string encoded by `quote`.
For `s = "https://example.com/oidc"` the text is given in full, for every
encoder that puts a string without characters to escape between double
quotes; its `jwks_uri` is `"https://example.com/oidc/openid/v1/jwks"`. -/
theorem buildDiscoveryJSON_document (quote : String → String) (s : String) :
    buildDiscoveryJSON quote s = .ok
      ("\x7b\n" ++ quote "issuer" ++ ": " ++ quote s ++ ",\n"
        ++ quote "jwks_uri" ++ ": " ++ quote (s ++ "/openid/v1/jwks") ++ ",\n"
        ++ quote "authorization_endpoint" ++ ": "
        ++ quote "urn:kubernetes:programmatic_authorization" ++ ",\n"
        ++ quote "response_types_supported" ++ ": [\n" ++ quote "id_token" ++ "\n],\n"
        ++ quote "subject_types_supported" ++ ": [\n" ++ quote "public" ++ "\n],\n"
        ++ quote "id_token_signing_alg_values_supported" ++ ": [\n" ++ quote "RS256"
        ++ "\n],\n"
        ++ quote "claims_supported" ++ ": [\n" ++ quote "sub" ++ ",\n" ++ quote "iss"
        ++ "\n]\n\x7d") ∧
    ∀ encode : String → String,
      (∀ t, needsNoEscape t = true → encode t = quotePlain t) →
      buildDiscoveryJSON encode "https://example.com/oidc" = .ok
        ("\x7b\n"
          ++ "\"issuer\": \"https://example.com/oidc\",\n"
          ++ "\"jwks_uri\": \"https://example.com/oidc/openid/v1/jwks\",\n"
          ++ "\"authorization_endpoint\": \"urn:kubernetes:programmatic_authorization\",\n"
          ++ "\"response_types_supported\": [\n\"id_token\"\n],\n"
          ++ "\"subject_types_supported\": [\n\"public\"\n],\n"
          ++ "\"id_token_signing_alg_values_supported\": [\n\"RS256\"\n],\n"
          ++ "\"claims_supported\": [\n\"sub\",\n\"iss\"\n]\n\x7d") := by
  refine ⟨buildDiscoveryJSON_text quote s, ?_⟩
  intro encode hencode
  rw [buildDiscoveryJSON_text encode "https://example.com/oidc",
    hencode "issuer" (by decide), hencode "https://example.com/oidc" (by decide),
    hencode "jwks_uri" (by decide),
    hencode ("https://example.com/oidc" ++ "/openid/v1/jwks") (by decide),
    hencode "authorization_endpoint" (by decide),
    hencode "urn:kubernetes:programmatic_authorization" (by decide),
    hencode "response_types_supported" (by decide), hencode "id_token" (by decide),
    hencode "subject_types_supported" (by decide), hencode "public" (by decide),
    hencode "id_token_signing_alg_values_supported" (by decide), hencode "RS256" (by decide),
    hencode "claims_supported" (by decide), hencode "sub" (by decide),
    hencode "iss" (by decide)]
  rfl

/-- C1, for the encoder that puts every string between double quotes: the
text for the issuer URL `https://example.com/oidc`. -/
theorem buildDiscoveryJSON_document_witness :
    buildDiscoveryJSON quotePlain "https://example.com/oidc" = .ok
      ("\x7b\n"
        ++ "\"issuer\": \"https://example.com/oidc\",\n"
        ++ "\"jwks_uri\": \"https://example.com/oidc/openid/v1/jwks\",\n"
        ++ "\"authorization_endpoint\": \"urn:kubernetes:programmatic_authorization\",\n"
        ++ "\"response_types_supported\": [\n\"id_token\"\n],\n"
        ++ "\"subject_types_supported\": [\n\"public\"\n],\n"
        ++ "\"id_token_signing_alg_values_supported\": [\n\"RS256\"\n],\n"
        ++ "\"claims_supported\": [\n\"sub\",\n\"iss\"\n]\n\x7d") :=
  (buildDiscoveryJSON_document quotePlain "https://example.com/oidc").2 quotePlain
    (fun _ _ => rfl)

/-! ## The key set -/

theorem signing_iff {PK : Type} (item : KeysetItem PK) :
    item.signing = true ↔
      item.DistrustTimestamp = none ∧
        ∃ cert, item.Certificate = some cert ∧ cert.Subject.CommonName = "service-account" := by
  unfold KeysetItem.signing
  cases item.DistrustTimestamp <;> cases item.Certificate <;> simp

theorem entry_eq_none_of_not_signing {PK : Type} (env : KeysEnv PK) (item : KeysetItem PK)
    (h : item.signing = false) : Open.entry env item = none := by
  simp [Open.entry, h]

/-- What the loop of `Open` returns when it returns: the keys it started with,
followed by the entry of every item, in order; and every signing item has an
entry. -/
theorem loop_ok {PK : Type} (env : KeysEnv PK) (items : List (KeysetItem PK)) :
    ∀ (acc keys : List (JSONWebKey PK)), Open.loop env items acc = .ok keys →
      keys = acc ++ items.filterMap (Open.entry env) ∧
        ∀ item ∈ items, item.signing = true → (Open.entry env item).isSome = true := by
  induction items with
  | nil =>
    intro acc keys h
    simp [Open.loop] at h
    simp [h]
  | cons item items ih =>
    intro acc keys h
    unfold Open.loop at h
    by_cases hd : item.DistrustTimestamp = none
    · cases hc : item.Certificate with
      | none =>
        have hs : item.signing = false := by simp [KeysetItem.signing, hc]
        simp only [hd, hc, ne_eq, not_true_eq_false, if_false] at h
        obtain ⟨h1, h2⟩ := ih acc keys h
        refine ⟨?_, ?_⟩
        · simp [h1, entry_eq_none_of_not_signing env item hs]
        · intro it hit hsig
          rcases List.mem_cons.1 hit with rfl | hit
          · simp [hs] at hsig
          · exact h2 it hit hsig
      | some cert =>
        simp only [hd, hc, ne_eq, not_true_eq_false, if_false] at h
        by_cases hn : cert.Subject.CommonName = "service-account"
        · simp only [hn, not_true_eq_false, if_false] at h
          have hs : item.signing = true := by simp [KeysetItem.signing, hd, hc, hn]
          cases hm : env.MarshalPKIXPublicKey cert.PublicKey with
          | error err => simp [hm] at h
          | ok der =>
            simp only [hm] at h
            obtain ⟨h1, h2⟩ := ih _ keys h
            have he : Open.entry env item = some
                { Key := cert.PublicKey, KeyID := keyID env der,
                  Algorithm := "RS256", Use := "sig" } := by
              simp [Open.entry, hs, hc, hm]
            refine ⟨?_, ?_⟩
            · simp [h1, he]
            · intro it hit hsig
              rcases List.mem_cons.1 hit with rfl | hit
              · simp [he]
              · exact h2 it hit hsig
        · simp only [hn, not_false_eq_true, if_true] at h
          have hs : item.signing = false := by simp [KeysetItem.signing, hc, hn]
          obtain ⟨h1, h2⟩ := ih acc keys h
          refine ⟨?_, ?_⟩
          · simp [h1, entry_eq_none_of_not_signing env item hs]
          · intro it hit hsig
            rcases List.mem_cons.1 hit with rfl | hit
            · simp [hs] at hsig
            · exact h2 it hit hsig
    · have hs : item.signing = false := by
        cases hdt : item.DistrustTimestamp with
        | none => exact absurd hdt hd
        | some t => simp [KeysetItem.signing, hdt]
      simp only [ne_eq, hd, not_false_eq_true, if_true] at h
      obtain ⟨h1, h2⟩ := ih acc keys h
      refine ⟨?_, ?_⟩
      · simp [h1, entry_eq_none_of_not_signing env item hs]
      · intro it hit hsig
        rcases List.mem_cons.1 hit with rfl | hit
        · simp [hs] at hsig
        · exact h2 it hit hsig

/-- The loop of `Open` returns when every signing item has an entry. -/
theorem loop_of_entries {PK : Type} (env : KeysEnv PK) (items : List (KeysetItem PK)) :
    ∀ (acc : List (JSONWebKey PK)),
      (∀ item ∈ items, item.signing = true → (Open.entry env item).isSome = true) →
      Open.loop env items acc = .ok (acc ++ items.filterMap (Open.entry env)) := by
  induction items with
  | nil => intro acc _; simp [Open.loop]
  | cons item items ih =>
    intro acc hall
    have hrest : ∀ it ∈ items, it.signing = true → (Open.entry env it).isSome = true :=
      fun it hit => hall it (List.mem_cons_of_mem _ hit)
    have hhead := hall item (List.mem_cons_self _ _)
    unfold Open.loop
    by_cases hd : item.DistrustTimestamp = none
    · cases hc : item.Certificate with
      | none =>
        have hs : item.signing = false := by simp [KeysetItem.signing, hc]
        simp [hd, ih acc hrest, entry_eq_none_of_not_signing env item hs]
      | some cert =>
        by_cases hn : cert.Subject.CommonName = "service-account"
        · have hs : item.signing = true := by simp [KeysetItem.signing, hd, hc, hn]
          cases hm : env.MarshalPKIXPublicKey cert.PublicKey with
          | error err =>
            have := hhead hs
            simp [Open.entry, hs, hc, hm] at this
          | ok der =>
            have he : Open.entry env item = some
                { Key := cert.PublicKey, KeyID := keyID env der,
                  Algorithm := "RS256", Use := "sig" } := by
              simp [Open.entry, hs, hc, hm]
            simp [hd, hn, hm, ih _ hrest, he]
        · have hs : item.signing = false := by simp [KeysetItem.signing, hc, hn]
          simp [hd, hn, ih acc hrest, entry_eq_none_of_not_signing env item hs]
    · have hs : item.signing = false := by
        cases hdt : item.DistrustTimestamp with
        | none => exact absurd hdt hd
        | some t => simp [KeysetItem.signing, hdt]
      simp [hd, ih acc hrest, entry_eq_none_of_not_signing env item hs]

/-- An entry is built from the certificate of a signing item. -/
theorem entry_eq_some {PK : Type} (env : KeysEnv PK) (item : KeysetItem PK) (k : JSONWebKey PK)
    (h : Open.entry env item = some k) :
    item.signing = true ∧ ∃ cert der, item.Certificate = some cert ∧
      env.MarshalPKIXPublicKey cert.PublicKey = .ok der ∧
      k = { Key := cert.PublicKey, KeyID := keyID env der, Algorithm := "RS256", Use := "sig" } := by
  unfold Open.entry at h
  by_cases hs : item.signing = true
  · refine ⟨hs, ?_⟩
    cases hc : item.Certificate with
    | none => simp [hs, hc] at h
    | some cert =>
      cases hm : env.MarshalPKIXPublicKey cert.PublicKey with
      | error err => simp [hs, hc, hm] at h
      | ok der =>
        simp [hs, hc, hm] at h
        exact ⟨cert, der, rfl, hm, h.symm⟩
  · simp [hs] at h

theorem insertByLess_perm {α : Type} (less : α → α → Bool) (x : α) (l : List α) :
    (insertByLess less x l).Perm (x :: l) := by
  induction l with
  | nil => simp [insertByLess]
  | cons y ys ih =>
    unfold insertByLess
    split
    · exact List.Perm.refl _
    · exact (List.Perm.cons y ih).trans (List.Perm.swap x y ys)

theorem sortSlice_perm {α : Type} (less : α → α → Bool) (l : List α) :
    (sortSlice less l).Perm l := by
  induction l with
  | nil => simp [sortSlice]
  | cons x xs ih =>
    unfold sortSlice
    exact (insertByLess_perm less x _).trans (List.Perm.cons x ih)

theorem insertByLess_sorted {α : Type} (f : α → String) (x : α) (l : List α)
    (h : l.Pairwise (fun a b => f a ≤ f b)) :
    (insertByLess (fun a b => decide (f a < f b)) x l).Pairwise (fun a b => f a ≤ f b) := by
  induction l with
  | nil => simp [insertByLess]
  | cons y ys ih =>
    unfold insertByLess
    obtain ⟨hy, hys⟩ := List.pairwise_cons.1 h
    by_cases hlt : f x < f y
    · simp only [hlt, decide_True, if_true]
      refine List.pairwise_cons.2 ⟨?_, h⟩
      intro b hb
      rcases List.mem_cons.1 hb with rfl | hb
      · exact le_of_lt hlt
      · exact le_trans (le_of_lt hlt) (hy b hb)
    · simp only [hlt, decide_False, Bool.false_eq_true, if_false]
      refine List.pairwise_cons.2 ⟨?_, ih hys⟩
      intro b hb
      rcases List.mem_cons.1 ((insertByLess_perm _ x ys).mem_iff.1 hb) with rfl | hb
      · exact not_lt.1 hlt
      · exact hy b hb

theorem sortSlice_sorted {α : Type} (f : α → String) (l : List α) :
    (sortSlice (fun a b => decide (f a < f b)) l).Pairwise (fun a b => f a ≤ f b) := by
  induction l with
  | nil => simp [sortSlice]
  | cons x xs ih =>
    unfold sortSlice
    exact insertByLess_sorted f x _ ih

/-- Two lists that are permutations of each other and list the same keys in
the same order are equal, when the key determines the element. -/
theorem eq_of_perm_of_map_eq {α : Type} (f : α → String) :
    ∀ (l₁ l₂ : List α), l₁.Perm l₂ → l₁.map f = l₂.map f →
      (∀ a ∈ l₁, ∀ b ∈ l₁, f a = f b → a = b) → l₁ = l₂ := by
  intro l₁
  induction l₁ with
  | nil => intro l₂ hp _ _; exact (List.Perm.nil_eq hp)
  | cons a t ih =>
    intro l₂ hp hm hinj
    cases l₂ with
    | nil => exact absurd hp.length_eq (by simp)
    | cons b u =>
      simp only [List.map_cons, List.cons.injEq] at hm
      have hb : b ∈ a :: t := hp.mem_iff.2 (List.mem_cons_self _ _)
      have hab : a = b := hinj a (List.mem_cons_self _ _) b hb hm.1
      subst hab
      have ht : t = u :=
        ih u (List.Perm.cons_inv hp) hm.2
          (fun x hx y hy => hinj x (List.mem_cons_of_mem _ hx) y (List.mem_cons_of_mem _ hy))
      rw [ht]

/-- Two sorted permutations of the same keys are equal, when the key
determines the element. -/
theorem sorted_perm_unique {α : Type} (f : α → String) (l₁ l₂ : List α) (hp : l₁.Perm l₂)
    (h₁ : l₁.Pairwise (fun a b => f a ≤ f b)) (h₂ : l₂.Pairwise (fun a b => f a ≤ f b))
    (hinj : ∀ a ∈ l₁, ∀ b ∈ l₁, f a = f b → a = b) : l₁ = l₂ := by
  have hm : l₁.map f = l₂.map f := by
    have anti : IsAntisymm String (fun a b => a ≤ b) := ⟨fun _ _ => le_antisymm⟩
    exact List.eq_of_perm_of_sorted (hp.map f) (List.pairwise_map.2 h₁) (List.pairwise_map.2 h₂)
  exact eq_of_perm_of_map_eq f l₁ l₂ hp hm hinj

/-- What `Open` computes when it returns: the keys are the sorted entries of
the items of the key set, and the output is their JSON text. -/
theorem Open_ok {PK : Type} (env : KeysEnv PK) (o : OIDCKeys PK) (out : String)
    (h : Open env o = .ok out) :
    ∃ keyset, o.SigningKey.Keyset = some keyset ∧
      (∀ item ∈ keyset.Items, item.signing = true → (Open.entry env item).isSome = true) ∧
      Open.keys env o = .ok (sortSlice (fun a b => decide (a.KeyID < b.KeyID))
        (keyset.Items.filterMap (Open.entry env))) ∧
      env.MarshalIndent (KeyResponse.mk (sortSlice (fun a b => decide (a.KeyID < b.KeyID))
        (keyset.Items.filterMap (Open.entry env)))) = .ok out := by
  unfold Open at h
  cases hk : Open.keys env o with
  | error f => simp [hk] at h
  | ok keys =>
    simp only [hk] at h
    unfold Open.keys at hk
    cases hks : o.SigningKey.Keyset with
    | none => simp [hks] at hk
    | some keyset =>
      simp only [hks] at hk
      cases hl : Open.loop env keyset.Items [] with
      | error f => simp [hl] at hk
      | ok pre =>
        simp only [hl, Except.ok.injEq] at hk
        obtain ⟨hpre, hall⟩ := loop_ok env keyset.Items [] pre hl
        simp only [List.nil_append] at hpre
        subst hpre
        refine ⟨keyset, rfl, hall, ?_, ?_⟩
        · rw [hk]
        · cases hm : env.MarshalIndent { Keys := keys } with
          | error err => simp [hm] at h
          | ok bytes =>
            simp only [hm, Except.ok.injEq] at h
            rw [hk, hm, h]

/-- The keys of the entries are the public keys of the signing items. -/
theorem map_Key_filterMap_entry {PK : Type} (env : KeysEnv PK) (items : List (KeysetItem PK))
    (hall : ∀ item ∈ items, item.signing = true → (Open.entry env item).isSome = true) :
    (items.filterMap (Open.entry env)).map (fun k => k.Key) =
      (items.filter fun item => item.signing).filterMap
        (fun item => item.Certificate.map fun cert => cert.PublicKey) := by
  induction items with
  | nil => simp
  | cons item items ih =>
    have hrest := ih (fun it hit => hall it (List.mem_cons_of_mem _ hit))
    by_cases hs : item.signing = true
    · have hsome := hall item (List.mem_cons_self _ _) hs
      obtain ⟨k, hk⟩ := Option.isSome_iff_exists.1 hsome
      obtain ⟨_, cert, der, hc, _, hkeq⟩ := entry_eq_some env item k hk
      simp [List.filterMap_cons, hk, List.filter_cons, hs, hc, hrest, hkeq]
    · have hs' : item.signing = false := by simpa using hs
      simp [List.filterMap_cons, entry_eq_none_of_not_signing env item hs', List.filter_cons,
        hs', hrest]

/-- There are as many entries as signing items. -/
theorem length_filterMap_entry {PK : Type} (env : KeysEnv PK) (items : List (KeysetItem PK))
    (hall : ∀ item ∈ items, item.signing = true → (Open.entry env item).isSome = true) :
    (items.filterMap (Open.entry env)).length = (items.filter fun item => item.signing).length := by
  induction items with
  | nil => simp
  | cons item items ih =>
    have hrest := ih (fun it hit => hall it (List.mem_cons_of_mem _ hit))
    by_cases hs : item.signing = true
    · have hsome := hall item (List.mem_cons_self _ _) hs
      obtain ⟨k, hk⟩ := Option.isSome_iff_exists.1 hsome
      simp [List.filterMap_cons, hk, List.filter_cons, hs, hrest]
    · have hs' : item.signing = false := by simpa using hs
      simp [List.filterMap_cons, entry_eq_none_of_not_signing env item hs', List.filter_cons,
        hs', hrest]

/-- The comparison of `Open` decides the order of the character lists. -/
theorem decide_lt_eq_toList (a b : String) :
    decide (a < b) = decide (a.toList < b.toList) := by
  simp [String.lt_iff_toList_lt]

/-- The result of `Open` on the sample. -/
theorem Open_sample : Open sampleEnv sampleKeys = .ok sampleOutput := by
  unfold Open Open.keys
  simp only [decide_lt_eq_toList]
  rfl

/-- C2: whenever `Open` succeeds, an item of the key set contributes a key if
and only if it has no distrust timestamp and has a certificate whose subject
common name is `service-account`: the emitted keys are, up to order, the
entries of exactly those items, their public keys are the public keys of
those items, and there are as many keys as such items. -/
theorem Open_publishes_signing_items {PK : Type} (env : KeysEnv PK) (o : OIDCKeys PK)
    (out : String) (h : Open env o = .ok out) :
    ∃ keyset keys, o.SigningKey.Keyset = some keyset ∧ Open.keys env o = .ok keys ∧
      env.MarshalIndent { Keys := keys } = .ok out ∧
      (∀ item ∈ keyset.Items,
        ((Open.entry env item).isSome = true ↔
          item.DistrustTimestamp = none ∧ ∃ cert, item.Certificate = some cert ∧
            cert.Subject.CommonName = "service-account")) ∧
      keys.Perm (keyset.Items.filterMap (Open.entry env)) ∧
      (keys.map fun k => k.Key).Perm
        ((keyset.Items.filter fun item => item.signing).filterMap
          fun item => item.Certificate.map fun cert => cert.PublicKey) ∧
      keys.length = (keyset.Items.filter fun item => item.signing).length ∧
      ∀ item ∈ keyset.Items,
        (item.signing = true ↔
          item.DistrustTimestamp = none ∧ ∃ cert, item.Certificate = some cert ∧
            cert.Subject.CommonName = "service-account") := by
  obtain ⟨keyset, hks, hall, hkeys, hm⟩ := Open_ok env o out h
  refine ⟨keyset, _, hks, hkeys, hm, ?_, sortSlice_perm _ _, ?_, ?_, fun item _ => signing_iff item⟩
  · intro item hitem
    rw [← signing_iff]
    constructor
    · intro hsome
      obtain ⟨k, hk⟩ := Option.isSome_iff_exists.1 hsome
      exact (entry_eq_some env item k hk).1
    · exact hall item hitem
  · rw [← map_Key_filterMap_entry env keyset.Items hall]
    exact (sortSlice_perm _ _).map _
  · rw [(sortSlice_perm _ _).length_eq]
    exact length_filterMap_entry env keyset.Items hall

/-- C2, on the sample key set: two of the five items are published. -/
theorem Open_publishes_signing_items_witness :
    Open sampleEnv sampleKeys = .ok sampleOutput ∧
    ∃ keyset keys, sampleKeys.SigningKey.Keyset = some keyset ∧
      Open.keys sampleEnv sampleKeys = .ok keys ∧
      sampleEnv.MarshalIndent { Keys := keys } = .ok sampleOutput ∧
      (∀ item ∈ keyset.Items,
        ((Open.entry sampleEnv item).isSome = true ↔
          item.DistrustTimestamp = none ∧ ∃ cert, item.Certificate = some cert ∧
            cert.Subject.CommonName = "service-account")) ∧
      keys.Perm (keyset.Items.filterMap (Open.entry sampleEnv)) ∧
      (keys.map fun k => k.Key).Perm
        ((keyset.Items.filter fun item => item.signing).filterMap
          fun item => item.Certificate.map fun cert => cert.PublicKey) ∧
      keys.length = (keyset.Items.filter fun item => item.signing).length ∧
      ∀ item ∈ keyset.Items,
        (item.signing = true ↔
          item.DistrustTimestamp = none ∧ ∃ cert, item.Certificate = some cert ∧
            cert.Subject.CommonName = "service-account") :=
  ⟨Open_sample, Open_publishes_signing_items sampleEnv sampleKeys sampleOutput Open_sample⟩

/-- C3: whenever `Open` succeeds, the emitted keys are sorted ascending by
key identifier (no key identifier is greater than a later one, in particular
for every adjacent pair) and are a permutation of the entries built from the
accepted items. -/
theorem Open_keys_sorted_perm {PK : Type} (env : KeysEnv PK) (o : OIDCKeys PK)
    (out : String) (h : Open env o = .ok out) :
    ∃ keyset keys, o.SigningKey.Keyset = some keyset ∧ Open.keys env o = .ok keys ∧
      env.MarshalIndent { Keys := keys } = .ok out ∧
      keys.Chain' (fun earlier later => ¬ later.KeyID < earlier.KeyID) ∧
      keys.Pairwise (fun earlier later => earlier.KeyID ≤ later.KeyID) ∧
      keys.Perm (keyset.Items.filterMap (Open.entry env)) := by
  obtain ⟨keyset, hks, _, hkeys, hm⟩ := Open_ok env o out h
  have hsorted := sortSlice_sorted (fun k : JSONWebKey PK => k.KeyID)
    (keyset.Items.filterMap (Open.entry env))
  refine ⟨keyset, _, hks, hkeys, hm, ?_, hsorted, sortSlice_perm _ _⟩
  exact (List.Pairwise.chain' hsorted).imp (fun {_ _} hle => not_lt.2 hle)

/-- C3, on the sample key set. -/
theorem Open_keys_sorted_perm_witness :
    Open sampleEnv sampleKeys = .ok sampleOutput ∧
    ∃ keyset keys, sampleKeys.SigningKey.Keyset = some keyset ∧
      Open.keys sampleEnv sampleKeys = .ok keys ∧
      sampleEnv.MarshalIndent { Keys := keys } = .ok sampleOutput ∧
      keys.Chain' (fun earlier later => ¬ later.KeyID < earlier.KeyID) ∧
      keys.Pairwise (fun earlier later => earlier.KeyID ≤ later.KeyID) ∧
      keys.Perm (keyset.Items.filterMap (Open.entry sampleEnv)) :=
  ⟨Open_sample, Open_keys_sorted_perm sampleEnv sampleKeys sampleOutput Open_sample⟩

/-- The converse of `Open_ok`. -/
theorem Open_of_entries {PK : Type} (env : KeysEnv PK) (o : OIDCKeys PK) (keyset : Keyset PK)
    (out : String) (hks : o.SigningKey.Keyset = some keyset)
    (hall : ∀ item ∈ keyset.Items, item.signing = true → (Open.entry env item).isSome = true)
    (hm : env.MarshalIndent (KeyResponse.mk (sortSlice (fun a b => decide (a.KeyID < b.KeyID))
      (keyset.Items.filterMap (Open.entry env)))) = .ok out) :
    Open env o = .ok out := by
  have hl := loop_of_entries env keyset.Items [] hall
  simp only [List.nil_append] at hl
  unfold Open Open.keys
  simp only [hks, hl, hm]

/-- Entries with the same key identifier are equal, when distinct public keys
of the key set have distinct key identifiers. -/
theorem entry_injective {PK : Type} (env : KeysEnv PK) (items : List (KeysetItem PK))
    (hinj : ∀ i₁ ∈ items, ∀ i₂ ∈ items, ∀ c₁ c₂ der₁ der₂,
      i₁.Certificate = some c₁ → i₂.Certificate = some c₂ →
      env.MarshalPKIXPublicKey c₁.PublicKey = .ok der₁ →
      env.MarshalPKIXPublicKey c₂.PublicKey = .ok der₂ →
      keyID env der₁ = keyID env der₂ → c₁.PublicKey = c₂.PublicKey)
    (a : JSONWebKey PK) (ha : a ∈ items.filterMap (Open.entry env))
    (b : JSONWebKey PK) (hb : b ∈ items.filterMap (Open.entry env))
    (hab : a.KeyID = b.KeyID) : a = b := by
  obtain ⟨i₁, hi₁, he₁⟩ := List.mem_filterMap.1 ha
  obtain ⟨i₂, hi₂, he₂⟩ := List.mem_filterMap.1 hb
  obtain ⟨_, c₁, der₁, hc₁, hm₁, rfl⟩ := entry_eq_some env i₁ a he₁
  obtain ⟨_, c₂, der₂, hc₂, hm₂, rfl⟩ := entry_eq_some env i₂ b he₂
  have hpk := hinj i₁ hi₁ i₂ hi₂ c₁ c₂ der₁ der₂ hc₁ hc₂ hm₁ hm₂ hab
  have hder : der₁ = der₂ := by
    rw [hpk, hm₂] at hm₁
    exact (Except.ok.inj hm₁).symm
  simp [hpk, hder]

/-- One direction of the determinism of `Open`. -/
theorem Open_transfer {PK : Type} (env : KeysEnv PK) (o₁ o₂ : OIDCKeys PK)
    (ks₁ ks₂ : Keyset PK) (h₁ : o₁.SigningKey.Keyset = some ks₁)
    (h₂ : o₂.SigningKey.Keyset = some ks₂) (hperm : ks₁.Items.Perm ks₂.Items)
    (hinj : ∀ i₁ ∈ ks₁.Items, ∀ i₂ ∈ ks₁.Items, ∀ c₁ c₂ der₁ der₂,
      i₁.Certificate = some c₁ → i₂.Certificate = some c₂ →
      env.MarshalPKIXPublicKey c₁.PublicKey = .ok der₁ →
      env.MarshalPKIXPublicKey c₂.PublicKey = .ok der₂ →
      keyID env der₁ = keyID env der₂ → c₁.PublicKey = c₂.PublicKey)
    (out : String) (h : Open env o₁ = .ok out) : Open env o₂ = .ok out := by
  obtain ⟨keyset, hks, hall, _, hm⟩ := Open_ok env o₁ out h
  rw [h₁] at hks
  cases Option.some.inj hks
  have hall₂ : ∀ item ∈ ks₂.Items, item.signing = true →
      (Open.entry env item).isSome = true :=
    fun item hitem => hall item (hperm.mem_iff.2 hitem)
  have hpre : (ks₁.Items.filterMap (Open.entry env)).Perm
      (ks₂.Items.filterMap (Open.entry env)) := hperm.filterMap _
  have hsorted : sortSlice (fun a b => decide (a.KeyID < b.KeyID))
        (ks₁.Items.filterMap (Open.entry env)) =
      sortSlice (fun a b => decide (a.KeyID < b.KeyID))
        (ks₂.Items.filterMap (Open.entry env)) := by
    apply sorted_perm_unique (fun k : JSONWebKey PK => k.KeyID)
    · exact ((sortSlice_perm _ _).trans hpre).trans (sortSlice_perm _ _).symm
    · exact sortSlice_sorted _ _
    · exact sortSlice_sorted _ _
    · intro a ha b hb hab
      exact entry_injective env ks₁.Items hinj a ((sortSlice_perm _ _).mem_iff.1 ha) b
        ((sortSlice_perm _ _).mem_iff.1 hb) hab
  rw [hsorted] at hm
  exact Open_of_entries env o₂ ks₂ out h₂ hall₂ hm

/-- C4: the key-set document that `Open` emits does not depend on the order in
which the items of the key set are visited: for two key sets whose item lists
are permutations of each other, `Open` emits a document for the one exactly
when it emits the same document for the other, provided distinct public keys
of the key set have distinct key identifiers. -/
theorem Open_deterministic {PK : Type} (env : KeysEnv PK) (o₁ o₂ : OIDCKeys PK)
    (ks₁ ks₂ : Keyset PK) (h₁ : o₁.SigningKey.Keyset = some ks₁)
    (h₂ : o₂.SigningKey.Keyset = some ks₂) (hperm : ks₁.Items.Perm ks₂.Items)
    (hinj : ∀ i₁ ∈ ks₁.Items, ∀ i₂ ∈ ks₁.Items, ∀ c₁ c₂ der₁ der₂,
      i₁.Certificate = some c₁ → i₂.Certificate = some c₂ →
      env.MarshalPKIXPublicKey c₁.PublicKey = .ok der₁ →
      env.MarshalPKIXPublicKey c₂.PublicKey = .ok der₂ →
      keyID env der₁ = keyID env der₂ → c₁.PublicKey = c₂.PublicKey) :
    ∀ out, Open env o₁ = .ok out ↔ Open env o₂ = .ok out := by
  intro out
  constructor
  · exact Open_transfer env o₁ o₂ ks₁ ks₂ h₁ h₂ hperm hinj out
  · apply Open_transfer env o₂ o₁ ks₂ ks₁ h₂ h₁ hperm.symm
    intro i₁ hi₁ i₂ hi₂
    exact hinj i₁ (hperm.mem_iff.2 hi₁) i₂ (hperm.mem_iff.2 hi₂)

/-- In the sample environment, the key identifier of a key is that of another
key of the sample only if the keys are equal. -/
theorem sample_injective : ∀ i₁ ∈ sampleItems, ∀ i₂ ∈ sampleItems, ∀ c₁ c₂ der₁ der₂,
    i₁.Certificate = some c₁ → i₂.Certificate = some c₂ →
    sampleEnv.MarshalPKIXPublicKey c₁.PublicKey = .ok der₁ →
    sampleEnv.MarshalPKIXPublicKey c₂.PublicKey = .ok der₂ →
    keyID sampleEnv der₁ = keyID sampleEnv der₂ → c₁.PublicKey = c₂.PublicKey := by
  intro i₁ hi₁ i₂ hi₂ c₁ c₂ der₁ der₂ hc₁ hc₂ hm₁ hm₂ hid
  simp only [sampleEnv, Except.ok.injEq] at hm₁ hm₂
  subst hm₁ hm₂
  simp only [sampleItems, List.mem_cons, List.mem_singleton, List.not_mem_nil, or_false] at hi₁ hi₂
  rcases hi₁ with rfl | rfl | rfl | rfl | rfl <;> simp at hc₁ <;> subst hc₁ <;>
    rcases hi₂ with rfl | rfl | rfl | rfl | rfl <;> simp at hc₂ <;> subst hc₂ <;>
    first
      | rfl
      | (exfalso; revert hid; decide)

/-- C4, on the sample key set and the same items in the opposite order. -/
theorem Open_deterministic_witness :
    Open sampleEnv sampleKeys = .ok sampleOutput ∧
    ∀ out, Open sampleEnv sampleKeys = .ok out ↔ Open sampleEnv sampleKeysReversed = .ok out :=
  ⟨Open_sample,
    Open_deterministic sampleEnv sampleKeys sampleKeysReversed
      { Items := sampleItems } { Items := sampleItems.reverse } rfl rfl
      (List.reverse_perm sampleItems).symm sample_injective⟩

/-! ## Key identifiers -/

theorem encodeURLChar_mem (v : Nat) : encodeURLChar v ∈ encodeURL := by
  unfold encodeURLChar
  have hlen : encodeURL.length = 64 := by decide
  have h : v % 64 < encodeURL.length := by
    rw [hlen]
    exact Nat.mod_lt _ (by decide)
  rw [List.getD_eq_getElem _ _ h]
  exact List.getElem_mem h

theorem rawURLEncode_mem : ∀ (src : List Nat) (c : Char), c ∈ rawURLEncode src → c ∈ encodeURL
  | [], c, h => by simp [rawURLEncode] at h
  | [a], c, h => by
    simp only [rawURLEncode, List.mem_cons, List.mem_singleton, List.not_mem_nil, or_false] at h
    rcases h with rfl | rfl <;> exact encodeURLChar_mem _
  | [a, b], c, h => by
    simp only [rawURLEncode, List.mem_cons, List.mem_singleton, List.not_mem_nil, or_false] at h
    rcases h with rfl | rfl | rfl <;> exact encodeURLChar_mem _
  | a :: b :: d :: rest, c, h => by
    simp only [rawURLEncode, List.mem_cons] at h
    rcases h with rfl | rfl | rfl | rfl | h
    · exact encodeURLChar_mem _
    · exact encodeURLChar_mem _
    · exact encodeURLChar_mem _
    · exact encodeURLChar_mem _
    · exact rawURLEncode_mem rest c h

/-- The unpadded encoding of `n` bytes has `⌈4n/3⌉` characters. -/
theorem rawURLEncode_length : ∀ src : List Nat,
    (rawURLEncode src).length = (4 * src.length + 2) / 3
  | [] => by simp [rawURLEncode]
  | [a] => by simp [rawURLEncode]
  | [a, b] => by simp [rawURLEncode]
  | a :: b :: c :: rest => by
    simp only [rawURLEncode, List.length_cons, rawURLEncode_length rest]
    omega

/-- The alphabet is `A-Z a-z 0-9 - _`; it does not hold the padding `=`. -/
theorem encodeURL_alphabet : ∀ c ∈ encodeURL,
    (('A' ≤ c ∧ c ≤ 'Z') ∨ ('a' ≤ c ∧ c ≤ 'z') ∨ ('0' ≤ c ∧ c ≤ '9') ∨ c = '-' ∨ c = '_') ∧
      c ≠ '=' := by
  decide

/-- C5: every key that `Open` emits carries the public key of an item of the
key set, the key identifier that is the unpadded URL-safe base64 text of the
SHA-256 digest of the DER encoding of that public key, the algorithm `RS256`
and the use `sig`; as the digest has 32 bytes, the key identifier has exactly
43 characters, all from `A-Z a-z 0-9 - _`, none of them the padding `=`. -/
theorem Open_key_identifiers {PK : Type} (env : KeysEnv PK) (o : OIDCKeys PK) (out : String)
    (hdigest : ∀ bytes, (env.SHA256 bytes).length = 32) (h : Open env o = .ok out) :
    ∃ keyset keys, o.SigningKey.Keyset = some keyset ∧ Open.keys env o = .ok keys ∧
      env.MarshalIndent { Keys := keys } = .ok out ∧
      ∀ k ∈ keys,
        (∃ item ∈ keyset.Items, ∃ cert publicKeyDERBytes,
          item.Certificate = some cert ∧ k.Key = cert.PublicKey ∧
          env.MarshalPKIXPublicKey cert.PublicKey = .ok publicKeyDERBytes ∧
          k.KeyID = EncodeToString (env.SHA256 publicKeyDERBytes)) ∧
        k.Algorithm = "RS256" ∧ k.Use = "sig" ∧ k.KeyID.length = 43 ∧
        ∀ c ∈ k.KeyID.toList,
          (('A' ≤ c ∧ c ≤ 'Z') ∨ ('a' ≤ c ∧ c ≤ 'z') ∨ ('0' ≤ c ∧ c ≤ '9') ∨ c = '-' ∨ c = '_') ∧
            c ≠ '=' := by
  obtain ⟨keyset, hks, _, hkeys, hm⟩ := Open_ok env o out h
  refine ⟨keyset, _, hks, hkeys, hm, ?_⟩
  intro k hk
  obtain ⟨item, hitem, he⟩ := List.mem_filterMap.1 ((sortSlice_perm _ _).mem_iff.1 hk)
  obtain ⟨_, cert, der, hc, hmar, rfl⟩ := entry_eq_some env item k he
  refine ⟨⟨item, hitem, cert, der, hc, rfl, hmar, rfl⟩, rfl, rfl, ?_, ?_⟩
  · show (EncodeToString (env.SHA256 der)).length = 43
    unfold EncodeToString
    rw [String.length_mk, rawURLEncode_length, hdigest]
  · intro c hc
    exact encodeURL_alphabet c (rawURLEncode_mem _ c hc)

/-- The sample digest has 32 bytes. -/
theorem sample_digest_length : ∀ bytes, (sampleEnv.SHA256 bytes).length = 32 := by
  intro bytes
  simp [sampleEnv]

/-- C5, on the sample key set. -/
theorem Open_key_identifiers_witness :
    (∀ bytes, (sampleEnv.SHA256 bytes).length = 32) ∧
    Open sampleEnv sampleKeys = .ok sampleOutput ∧
    ∃ keyset keys, sampleKeys.SigningKey.Keyset = some keyset ∧
      Open.keys sampleEnv sampleKeys = .ok keys ∧
      sampleEnv.MarshalIndent { Keys := keys } = .ok sampleOutput ∧
      ∀ k ∈ keys,
        (∃ item ∈ keyset.Items, ∃ cert publicKeyDERBytes,
          item.Certificate = some cert ∧ k.Key = cert.PublicKey ∧
          sampleEnv.MarshalPKIXPublicKey cert.PublicKey = .ok publicKeyDERBytes ∧
          k.KeyID = EncodeToString (sampleEnv.SHA256 publicKeyDERBytes)) ∧
        k.Algorithm = "RS256" ∧ k.Use = "sig" ∧ k.KeyID.length = 43 ∧
        ∀ c ∈ k.KeyID.toList,
          (('A' ≤ c ∧ c ≤ 'Z') ∨ ('a' ≤ c ∧ c ≤ 'z') ∨ ('0' ≤ c ∧ c ≤ '9') ∨ c = '-' ∨ c = '_') ∧
            c ≠ '=' :=
  ⟨sample_digest_length, Open_sample,
    Open_key_identifiers sampleEnv sampleKeys sampleOutput sample_digest_length Open_sample⟩

end model

namespace gcetasks

/-! ## Discovery -/

theorem ErrorOnFailure_pure {α : Type} (deps : Deps) (cloud : gce.GCECloud) (a : α) :
    (Traced.pure a).ErrorOnFailure deps cloud := by
  intro c hc
  simp [Traced.pure] at hc

theorem ErrorOnFailure_fail {α : Type} (deps : Deps) (cloud : gce.GCECloud) (f : Fault) :
    (Traced.fail f : Traced α).ErrorOnFailure deps cloud := by
  intro c hc
  simp [Traced.fail] at hc

theorem ErrorOnFailure_bind {α β : Type} (deps : Deps) (cloud : gce.GCECloud) (x : Traced α)
    (rest : α → Traced β) (hx : x.ErrorOnFailure deps cloud)
    (hrest : ∀ a, x.result = .ok a → (rest a).ErrorOnFailure deps cloud) :
    (x.bind rest).ErrorOnFailure deps cloud := by
  intro c hc hfail
  unfold Traced.bind at hc ⊢
  cases hr : x.result with
  | error f =>
    simp only [hr] at hc ⊢
    obtain ⟨msg, hmsg⟩ := hx c hc hfail
    rw [hr] at hmsg
    cases hmsg
    exact ⟨msg, rfl⟩
  | ok a =>
    simp only [hr, List.mem_append] at hc ⊢
    rcases hc with hc | hc
    · obtain ⟨msg, hmsg⟩ := hx c hc hfail
      rw [hr] at hmsg
      cases hmsg
    · exact hrest a hr c hc hfail

theorem bind_result_ok {α β : Type} (x : Traced α) (rest : α → Traced β) (b : β)
    (h : (x.bind rest).result = .ok b) : ∃ a, x.result = .ok a ∧ (rest a).result = .ok b := by
  unfold Traced.bind at h
  cases hr : x.result with
  | error f => simp [hr] at h
  | ok a =>
    simp only [hr] at h
    exact ⟨a, rfl, h⟩

theorem ErrorOnFailure_networkInterfaces (deps : Deps) (cloud : gce.GCECloud)
    (r : compute.Instance) (actual : Instance) :
    (Find.networkInterfaces deps cloud r actual).ErrorOnFailure deps cloud := by
  unfold Find.networkInterfaces
  cases r.NetworkInterfaces with
  | nil => exact ErrorOnFailure_pure deps cloud _
  | cons ni _ =>
    dsimp only
    cases ni.AccessConfigs with
    | nil => exact ErrorOnFailure_pure deps cloud _
    | cons ac _ =>
      dsimp only
      by_cases hnat : ac.NatIP = ""
      · simp only [hnat, ne_eq, not_true_eq_false, if_false]
        exact ErrorOnFailure_pure deps cloud _
      · simp only [ne_eq, hnat, not_false_eq_true, if_true]
        cases hq : cloud.AddressesListWithFilter cloud.Project cloud.Region
            ("address eq " ++ ac.NatIP) with
        | error err =>
          intro c _ _
          exact ⟨_, rfl⟩
        | ok addrs =>
          cases addrs with
          | nil =>
            intro c _ _
            exact ⟨_, rfl⟩
          | cons addr _ =>
            intro c hc hfail
            simp only [List.mem_singleton] at hc
            subst hc
            simp [Call.failed, hq] at hfail

theorem ErrorOnFailure_bootDisk (deps : Deps) (cloud : gce.GCECloud) (zone : String)
    (disk : compute.AttachedDisk) (actual : Instance) :
    (Find.bootDisk deps cloud zone disk actual).ErrorOnFailure deps cloud := by
  unfold Find.bootDisk
  dsimp only
  cases hg : cloud.DisksGet cloud.Project zone (deps.lastComponent disk.Source) with
  | error err =>
    dsimp only
    by_cases hnf : gce.IsNotFound err = true
    · simp only [hnf, if_true]
      intro c _ _
      exact ⟨_, rfl⟩
    · simp only [hnf, if_false]
      intro c _ _
      exact ⟨_, rfl⟩
  | ok d =>
    dsimp only
    cases hs : ShortenImageURL deps cloud.Project d.SourceImage with
    | error err =>
      intro c _ _
      exact ⟨_, rfl⟩
    | ok image =>
      dsimp only
      intro c hc hfail
      have hparse : ∃ u, deps.ParseGoogleCloudURL d.SourceImage = .ok u := by
        unfold ShortenImageURL at hs
        cases hp : deps.ParseGoogleCloudURL d.SourceImage with
        | error err => simp [hp] at hs
        | ok u => exact ⟨u, rfl⟩
      obtain ⟨u, hu⟩ := hparse
      simp only [List.mem_cons, List.mem_singleton, List.not_mem_nil, or_false] at hc
      rcases hc with rfl | rfl
      · simp [Call.failed, hg] at hfail
      · simp [Call.failed, hu] at hfail

theorem ErrorOnFailure_dataDisks (deps : Deps) (cloud : gce.GCECloud)
    (disks : List compute.AttachedDisk) :
    ∀ actual, (Find.dataDisks deps disks actual).ErrorOnFailure deps cloud := by
  induction disks with
  | nil =>
    intro actual
    exact ErrorOnFailure_pure deps cloud _
  | cons disk rest ih =>
    intro actual
    unfold Find.dataDisks
    cases hp : deps.ParseGoogleCloudURL disk.Source with
    | error err =>
      intro c _ _
      exact ⟨_, rfl⟩
    | ok url =>
      apply ErrorOnFailure_bind
      · intro c hc hfail
        simp only [List.mem_singleton] at hc
        subst hc
        simp [Call.failed, hp] at hfail
      · intro a _
        exact ih a

theorem ErrorOnFailure_disks (deps : Deps) (cloud : gce.GCECloud) (zone : String)
    (disks : List compute.AttachedDisk) (actual : Instance) :
    (Find.disks deps cloud zone disks actual).ErrorOnFailure deps cloud := by
  unfold Find.disks
  cases disks with
  | nil => exact ErrorOnFailure_pure deps cloud _
  | cons disk rest =>
    exact ErrorOnFailure_bind deps cloud _ _ (ErrorOnFailure_bootDisk deps cloud zone disk actual)
      (fun a _ => ErrorOnFailure_dataDisks deps cloud rest a)

theorem ErrorOnFailure_snapshot (deps : Deps) (cloud : gce.GCECloud) (zone : String)
    (r : compute.Instance) : (Find.snapshot deps cloud zone r).ErrorOnFailure deps cloud := by
  unfold Find.snapshot
  cases r.Tags with
  | none => exact ErrorOnFailure_fail deps cloud _
  | some tags =>
    apply ErrorOnFailure_bind
    · exact ErrorOnFailure_networkInterfaces deps cloud r _
    · intro a _
      apply ErrorOnFailure_bind
      · exact ErrorOnFailure_disks deps cloud zone r.Disks _
      · intro b _
        exact ErrorOnFailure_pure deps cloud _

/-- C6: `Find` returns the absent result (`nil, nil`) if and only if the
primary instance lookup reports not-found; and whenever a lookup that `Find`
makes fails (the instance lookup, the address query failing or returning no
address, the boot-disk lookup, also with disk-not-found, the parse of a disk
or image URL), either that lookup is the primary one reporting not-found, or
`Find` returns a Go error, hence neither a snapshot nor the absent result. -/
theorem Find_absent_iff_not_found (deps : Deps) (cloud : gce.GCECloud) (e : Instance) :
    ((Find deps cloud e).result = .ok none ↔
      ∃ zone name err, e.Zone = some zone ∧ e.Name = some name ∧
        cloud.InstancesGet cloud.Project zone name = .error err ∧ gce.IsNotFound err = true) ∧
    ∀ c ∈ (Find deps cloud e).calls, c.failed deps cloud = true →
      (∃ zone name err, e.Zone = some zone ∧ e.Name = some name ∧
        c = .InstancesGet cloud.Project zone name ∧
        cloud.InstancesGet cloud.Project zone name = .error err ∧ gce.IsNotFound err = true) ∨
      ∃ msg, (Find deps cloud e).result = .error (.error msg) := by
  unfold Find
  cases hz : e.Zone with
  | none => simp [Traced.fail]
  | some zone =>
    cases hn : e.Name with
    | none => simp [Traced.fail]
    | some name =>
      dsimp only
      cases hg : cloud.InstancesGet cloud.Project zone name with
      | error err =>
        by_cases hnf : gce.IsNotFound err = true
        · simp [hnf, hg]
        · simp [hnf, hg]
      | ok r =>
        dsimp only
        constructor
        · constructor
          · intro h
            obtain ⟨_, _, h2⟩ := bind_result_ok _ _ _ h
            obtain ⟨actual, _, h3⟩ := bind_result_ok _ _ _ h2
            simp [Traced.pure] at h3
          · rintro ⟨zone', name', err, hz', hn', herr, _⟩
            cases hz'
            cases hn'
            rw [hg] at herr
            cases herr
        · intro c hc hfail
          right
          refine ErrorOnFailure_bind deps cloud _ _ ?_ ?_ c hc hfail
          · intro c hc hfail
            simp only [List.mem_singleton] at hc
            subst hc
            simp [Call.failed, hg] at hfail
          · intro _ _
            exact ErrorOnFailure_bind deps cloud _ _ (ErrorOnFailure_snapshot deps cloud zone r)
              (fun a _ => ErrorOnFailure_pure deps cloud _)

/-- C6, on the sample cloud: the boot disk of the instance is reported
not-found, and `Find` returns an error; an instance that is reported
not-found gives the absent result. -/
theorem Find_absent_iff_not_found_witness :
    Call.DisksGet "proj" "z" "boot" ∈ (Find sampleDeps sampleCloud sampleInstance).calls ∧
    (Call.DisksGet "proj" "z" "boot").failed sampleDeps sampleCloud = true ∧
    (∃ msg, (Find sampleDeps sampleCloud sampleInstance).result = .error (.error msg)) ∧
    (Find sampleDeps sampleCloud { sampleInstance with Name := some "gone" }).result = .ok none :=
  have hmem : Call.DisksGet "proj" "z" "boot" ∈
      (Find sampleDeps sampleCloud sampleInstance).calls := by decide
  have hfail : (Call.DisksGet "proj" "z" "boot").failed sampleDeps sampleCloud = true := rfl
  ⟨hmem, hfail,
    ((Find_absent_iff_not_found sampleDeps sampleCloud sampleInstance).2 _ hmem hfail).elim
      (fun ⟨_, _, _, _, _, h, _⟩ => by cases h) id,
    (Find_absent_iff_not_found sampleDeps sampleCloud
      { sampleInstance with Name := some "gone" }).1.2
      ⟨"z", "gone", { msg := "not found", notFound := true }, rfl, rfl, rfl, rfl⟩⟩

/-! ## Rendering against the live API -/

theorem allFieldsEmpty_iff (changes : Instance) :
    changes.allFieldsEmpty ↔ changes = {} := by
  cases changes
  simp [Instance.allFieldsEmpty, and_assoc]

theorem isZero_iff (changes : Instance) : changes.isZero = true ↔ changes = {} := by
  simp [Instance.isZero, eq_comm]

theorem mapToGCE_zone (deps : Deps) (project : String)
    (ipAddressResolver : Address → Except Fault (Option String)) (e : Instance)
    (i : compute.Instance) (h : mapToGCE deps project ipAddressResolver e = .ok i) :
    ∃ zone, e.Zone = some zone := by
  unfold mapToGCE at h
  cases hz : e.Zone with
  | none => simp [hz, deref, bind, Except.bind] at h
  | some zone => exact ⟨zone, rfl⟩

/-- C7: for an existing instance, when every field of `changes` is empty,
`RenderGCE` makes no call at all, in particular no `Instances.Insert` and no
`Instances.SetMetadata`, and it returns success whenever `mapToGCE`
succeeds. -/
theorem RenderGCE_empty_changes (deps : Deps) (cloud : gce.GCECloud) (a e changes : Instance)
    (hempty : changes.allFieldsEmpty) :
    (RenderGCE deps cloud (some a) e changes).calls = [] ∧
    (∀ c ∈ (RenderGCE deps cloud (some a) e changes).calls, c.mutating = false) ∧
    (∀ i, mapToGCE deps cloud.Project RenderGCE.ipAddressResolver e = .ok i →
      (RenderGCE deps cloud (some a) e changes).result = .ok ()) := by
  have hzero : changes = {} := (allFieldsEmpty_iff changes).1 hempty
  subst hzero
  have hcalls : (RenderGCE deps cloud (some a) e {}).calls = [] := by
    unfold RenderGCE
    cases e.Zone with
    | none => rfl
    | some zone =>
      dsimp only
      cases mapToGCE deps cloud.Project RenderGCE.ipAddressResolver e with
      | error f => rfl
      | ok i => rfl
  refine ⟨hcalls, ?_, ?_⟩
  · intro c hc
    rw [hcalls] at hc
    cases hc
  · intro i hi
    obtain ⟨zone, hz⟩ := mapToGCE_zone deps _ _ e i hi
    unfold RenderGCE
    simp only [hz, hi]
    rfl

/-- C7, on the sample instance. -/
theorem RenderGCE_empty_changes_witness :
    ({} : Instance).allFieldsEmpty ∧
    (RenderGCE sampleDeps sampleCloud (some sampleInstance) sampleInstance {}).calls = [] ∧
    (∀ c ∈ (RenderGCE sampleDeps sampleCloud (some sampleInstance) sampleInstance {}).calls,
      c.mutating = false) ∧
    (∀ i, mapToGCE sampleDeps sampleCloud.Project RenderGCE.ipAddressResolver sampleInstance
        = .ok i →
      (RenderGCE sampleDeps sampleCloud (some sampleInstance) sampleInstance {}).result
        = .ok ()) ∧
    (RenderGCE sampleDeps sampleCloud (some sampleInstance) sampleInstance {}).result = .ok () :=
  have hempty : ({} : Instance).allFieldsEmpty := by
    simp [Instance.allFieldsEmpty]
  have h := RenderGCE_empty_changes sampleDeps sampleCloud sampleInstance sampleInstance {} hempty
  ⟨hempty, h.1, h.2.1, h.2.2, rfl⟩

/-- On the create path `RenderGCE` makes no call but `Instances.Insert`. -/
theorem RenderGCE_create_calls (deps : Deps) (cloud : gce.GCECloud) (e changes : Instance) :
    ∀ c ∈ (RenderGCE deps cloud none e changes).calls, ∃ project zone i,
      c = .InstancesInsert project zone i := by
  unfold RenderGCE
  cases e.Zone with
  | none => simp
  | some zone =>
    dsimp only
    cases mapToGCE deps cloud.Project RenderGCE.ipAddressResolver e with
    | error f => simp
    | ok i =>
      dsimp only
      cases cloud.InstancesInsert cloud.Project zone i <;> simp

/-- C8 fails on the create path: on the sample, `RenderGCE` for an instance
that does not exist calls `Instances.Insert`, which starts an operation, and
returns success without a `WaitForOp` on that operation; on the create path
no run of `RenderGCE` ever calls `WaitForOp`. -/
theorem RenderGCE_create_not_awaited :
    (RenderGCE sampleDeps sampleCloud none sampleInstance sampleInstance).result = .ok () ∧
    (∃ i, (RenderGCE sampleDeps sampleCloud none sampleInstance sampleInstance).calls
        = [.InstancesInsert "proj" "z" i] ∧
      sampleCloud.InstancesInsert "proj" "z" i = .ok { Name := "operation-insert" }) ∧
    ∀ (deps : Deps) (cloud : gce.GCECloud) (e changes : Instance) (op : compute.Operation),
      Call.WaitForOp op ∉ (RenderGCE deps cloud none e changes).calls := by
  refine ⟨rfl, ⟨_, rfl, rfl⟩, ?_⟩
  intro deps cloud e changes op hop
  obtain ⟨project, zone, i, hc⟩ := RenderGCE_create_calls deps cloud e changes _ hop
  cases hc

/-! ## Scopes -/

/-- On the rows of the table, each form is mapped to the other. -/
theorem scopeAliases_rows : ∀ kv ∈ scopeAliases,
    scopeToLongForm kv.1 = kv.2 ∧ scopeToShortForm kv.2 = kv.1 := by
  decide

/-- A string that is not a long-form URL of the table is its own short form. -/
theorem scopeToShortForm_of_not_url (s : String) (hno : ∀ kv ∈ scopeAliases, kv.2 ≠ s) :
    scopeToShortForm s = s := by
  unfold scopeToShortForm
  cases hf : scopeAliases.find? (fun kv => kv.2 = s) with
  | none => rfl
  | some kv =>
    have hmem : kv ∈ scopeAliases := List.mem_of_find?_eq_some hf
    have hkv : kv.2 = s := by simpa using List.find?_some hf
    exact absurd hkv (hno kv hmem)

/-- The round trip of one scope that is not a long-form URL of the table. -/
theorem scope_round_trip_one (s : String) (hno : ∀ kv ∈ scopeAliases, kv.2 ≠ s) :
    scopeToShortForm (scopeToLongForm s) = s := by
  cases hf : scopeAliases.find? (fun kv => kv.1 = s) with
  | none =>
    have hlong : scopeToLongForm s = s := by
      unfold scopeToLongForm
      rw [hf]
    rw [hlong]
    exact scopeToShortForm_of_not_url s hno
  | some kv =>
    have hmem : kv ∈ scopeAliases := List.mem_of_find?_eq_some hf
    have hkv : kv.1 = s := by simpa using List.find?_some hf
    have hlong : scopeToLongForm s = kv.2 := by
      unfold scopeToLongForm
      rw [hf]
    rw [hlong, (scopeAliases_rows kv hmem).2, hkv]

/-- The inner loop of `Find.scopes` appends the short form of every scope. -/
theorem foldl_goAppend (scopes : List String) :
    ∀ acc : Option (List String),
      scopes.foldl (fun acc scope => goAppend acc [scopeToShortForm scope]) acc
        = goAppend acc (scopes.map scopeToShortForm) := by
  induction scopes with
  | nil =>
    intro acc
    cases acc <;> simp [goAppend]
  | cons x xs ih =>
    intro acc
    rw [List.foldl_cons, ih]
    cases acc <;> simp [goAppend]

/-- C9 fails for a long-form URL of the table: a declared scope
`https://www.googleapis.com/auth/compute` is sent unchanged and reported by
`Find` as the alias `compute-rw`. It fails too for an instance without service
account: `mapToGCE` succeeds and sends no service account, so the declared
scope `compute-rw` is not reported at all. -/
theorem scope_round_trip_counterexample :
    scopeToShortForm (scopeToLongForm "https://www.googleapis.com/auth/compute") = "compute-rw" ∧
    scopeToShortForm (scopeToLongForm "https://www.googleapis.com/auth/compute")
      ≠ "https://www.googleapis.com/auth/compute" ∧
    Find.scopes (mapToGCE.serviceAccounts
      { sampleInstance with Scopes := some ["https://www.googleapis.com/auth/compute"] }) none
      = some ["compute-rw"] ∧
    sampleNoServiceAccount.Scopes = some ["compute-rw"] ∧
    (∃ i, mapToGCE sampleDeps "proj" RenderGCE.ipAddressResolver sampleNoServiceAccount = .ok i ∧
      i.ServiceAccounts = [] ∧ Find.scopes i.ServiceAccounts none = none) ∧
    Find.scopes (mapToGCE.serviceAccounts sampleNoServiceAccount) none
      ≠ sampleNoServiceAccount.Scopes := by
  refine ⟨by decide, by decide, by decide, rfl, ⟨_, rfl, rfl, rfl⟩, by decide⟩

/-- C9, amended: for every scope string that is not one of the eight long-form
URLs of `scopeAliases` (an alias or any other string),
`scopeToShortForm (scopeToLongForm s) = s`; so for every expected instance
that has a service account and whose declared scope list holds no such URL,
the scopes that `Find` reports for the service account that `mapToGCE` sent
are the declared scopes, in order (an empty declared list is reported as
`nil`). A long-form URL of the table is reported as its alias, and for an
instance without service account `mapToGCE` sends no scopes and `Find`
reports none. -/
theorem scope_round_trip (declared : List String)
    (hno : ∀ s ∈ declared, ∀ kv ∈ scopeAliases, kv.2 ≠ s) :
    (∀ s ∈ declared, scopeToShortForm (scopeToLongForm s) = s) ∧
    (∀ (e : Instance) (serviceAccount : ServiceAccount),
      e.ServiceAccount = some serviceAccount → e.Scopes = some declared →
        (Find.scopes (mapToGCE.serviceAccounts e) none).getD [] = declared ∧
        (declared ≠ [] → Find.scopes (mapToGCE.serviceAccounts e) none = some declared)) ∧
    (∀ kv ∈ scopeAliases, scopeToShortForm (scopeToLongForm kv.2) = kv.1) ∧
    ∀ e : Instance, e.ServiceAccount = none →
      mapToGCE.serviceAccounts e = [] ∧ Find.scopes (mapToGCE.serviceAccounts e) none = none := by
  have hone : ∀ s ∈ declared, scopeToShortForm (scopeToLongForm s) = s :=
    fun s hs => scope_round_trip_one s (hno s hs)
  have hmap : (declared.map scopeToLongForm).map scopeToShortForm = declared := by
    rw [List.map_map]
    conv_rhs => rw [← List.map_id declared]
    exact List.map_congr_left (fun s hs => hone s hs)
  refine ⟨hone, ?_, by decide, ?_⟩
  · intro e serviceAccount hsa hscopes
    have hreport : Find.scopes (mapToGCE.serviceAccounts e) none = goAppend none declared := by
      simp only [mapToGCE.serviceAccounts, hsa, hscopes, Find.scopes, List.foldl_cons,
        List.foldl_nil, foldl_goAppend, mapToGCE.scopes, hmap]
    rw [hreport]
    cases declared with
    | nil => simp [goAppend]
    | cons x xs => simp [goAppend]
  · intro e hsa
    have hnone : mapToGCE.serviceAccounts e = [] := by
      simp [mapToGCE.serviceAccounts, hsa]
    rw [hnone]
    exact ⟨rfl, rfl⟩

/-- C9, amended, on the declared scopes of the sample instance, which has a
service account. -/
theorem scope_round_trip_witness :
    (∀ s ∈ ["compute-rw", "https://example.com/custom"], ∀ kv ∈ scopeAliases, kv.2 ≠ s) ∧
    sampleInstance.ServiceAccount = some { Email := some "sa@example.com" } ∧
    sampleInstance.Scopes = some ["compute-rw", "https://example.com/custom"] ∧
    Find.scopes (mapToGCE.serviceAccounts sampleInstance) none
      = some ["compute-rw", "https://example.com/custom"] :=
  have hno : ∀ s ∈ ["compute-rw", "https://example.com/custom"],
      ∀ kv ∈ scopeAliases, kv.2 ≠ s := by decide
  ⟨hno, rfl, rfl,
    ((scope_round_trip ["compute-rw", "https://example.com/custom"] hno).2.1 sampleInstance
      { Email := some "sa@example.com" } rfl rfl).2 (by simp)⟩

/-! ## Rendering for Terraform -/

/-- The access config that `mapToGCE` builds when the resolver returns an
address. -/
theorem networkInterface_natIP (deps : Deps) (project : String)
    (ipAddressResolver : Address → Except Fault (Option String)) (e : Instance) (ip : Address)
    (addr : String) (hip : e.IPAddress = some ip) (hres : ipAddressResolver ip = .ok (some addr))
    (ni : compute.NetworkInterface)
    (h : mapToGCE.networkInterface deps project ipAddressResolver e = .ok ni) :
    ni.AccessConfigs = [{ Type_ := "ONE_TO_ONE_NAT", NatIP := addr }] := by
  unfold mapToGCE.networkInterface at h
  simp only [hip, hres, bind, Except.bind, pure, Except.pure] at h
  cases hnet : deps.NetworkURL e.Network project with
  | error f => simp [hnet] at h
  | ok network =>
    simp only [hnet] at h
    cases hsub : e.Subnet with
    | none =>
      simp only [hsub] at h
      cases hst : e.StackType with
      | none =>
        simp only [hst, Except.ok.injEq] at h
        rw [← h]
      | some stackType =>
        simp only [hst, Except.ok.injEq] at h
        rw [← h]
    | some subnet =>
      simp only [hsub] at h
      cases hname : subnet.Name with
      | none => simp [hname, deref] at h
      | some name =>
        simp only [hname, deref] at h
        cases hst : e.StackType with
        | none =>
          simp only [hst, Except.ok.injEq] at h
          rw [← h]
        | some stackType =>
          simp only [hst, Except.ok.injEq] at h
          rw [← h]

/-- The instance that `mapToGCE` returns has the one network interface built
by `mapToGCE.networkInterface`. -/
theorem mapToGCE_networkInterfaces (deps : Deps) (project : String)
    (ipAddressResolver : Address → Except Fault (Option String)) (e : Instance)
    (i : compute.Instance) (h : mapToGCE deps project ipAddressResolver e = .ok i) :
    ∃ ni, mapToGCE.networkInterface deps project ipAddressResolver e = .ok ni ∧
      i.NetworkInterfaces = [ni] := by
  unfold mapToGCE at h
  simp only [bind, Except.bind, pure, Except.pure] at h
  cases h1 : deref e.Zone with
  | error f => simp [h1] at h
  | ok zone =>
    simp only [h1] at h
    cases h2 : deref e.Image with
    | error f => simp [h2] at h
    | ok image =>
      simp only [h2] at h
      cases h3 : BuildImageURL deps.quote project image with
      | error f => simp [h3] at h
      | ok sourceImage =>
        simp only [h3] at h
        cases h4 : mapToGCE.disks deps project (e.Disks.getD []) with
        | error f => simp [h4] at h
        | ok moreDisks =>
          simp only [h4] at h
          cases h5 : mapToGCE.networkInterface deps project ipAddressResolver e with
          | error f => simp [h5] at h
          | ok ni =>
            simp only [h5] at h
            cases h6 : mapToGCE.metadataItems deps (e.Metadata.getD []) with
            | error f => simp [h6] at h
            | ok metadataItems =>
              simp only [h6] at h
              cases h7 : deref e.CanIPForward with
              | error f => simp [h7] at h
              | ok canIPForward =>
                simp only [h7] at h
                cases h8 : deref e.MachineType with
                | error f => simp [h8] at h
                | ok machineType =>
                  simp only [h8] at h
                  cases h9 : deref e.Name with
                  | error f => simp [h9] at h
                  | ok name =>
                    simp only [h9, Except.ok.injEq] at h
                    exact ⟨ni, rfl, by rw [← h]⟩

/-- C10: for every expected instance whose `IPAddress` has the name `n`, the
resolver of `RenderTerraform` does not fail: it returns the reference
`"${google_compute_address." ++ n ++ ".address}"`, whatever IP the address has or
has not; and the instance that `mapToGCE` returns has one network interface,
with one access config, whose NAT IP is exactly that reference. -/
theorem RenderTerraform_symbolic_address (deps : Deps) (project : String) (e : Instance)
    (ip : Address) (n : String) (hip : e.IPAddress = some ip) (hn : ip.Name = some n) :
    RenderTerraform.ipAddressResolver ip
      = .ok (some ("$\x7bgoogle_compute_address." ++ n ++ ".address\x7d")) ∧
    ∀ i, RenderTerraform.i deps project e = .ok i →
      ∃ ni, i.NetworkInterfaces = [ni] ∧
        ni.AccessConfigs = [{ Type_ := "ONE_TO_ONE_NAT",
                              NatIP := "$\x7bgoogle_compute_address." ++ n ++ ".address\x7d" }] := by
  have hres : RenderTerraform.ipAddressResolver ip
      = .ok (some ("$\x7bgoogle_compute_address." ++ n ++ ".address\x7d")) := by
    unfold RenderTerraform.ipAddressResolver
    rw [hn]
  refine ⟨hres, ?_⟩
  intro i hi
  obtain ⟨ni, hni, hlist⟩ := mapToGCE_networkInterfaces deps project _ e i hi
  exact ⟨ni, hlist, networkInterface_natIP deps project _ e ip _ hip hres ni hni⟩

/-- C10, on the sample instance, whose address has the IP `192.0.2.1`:
`mapToGCE` succeeds and the NAT IP is the reference to the address `ip`. -/
theorem RenderTerraform_symbolic_address_witness :
    (∃ i, RenderTerraform.i sampleDeps "proj" sampleInstance = .ok i) ∧
    RenderTerraform.ipAddressResolver { Name := some "ip", IPAddress := some "192.0.2.1" }
      = .ok (some ("$\x7bgoogle_compute_address." ++ "ip" ++ ".address\x7d")) ∧
    ∀ i, RenderTerraform.i sampleDeps "proj" sampleInstance = .ok i →
      ∃ ni, i.NetworkInterfaces = [ni] ∧
        ni.AccessConfigs = [{ Type_ := "ONE_TO_ONE_NAT",
                              NatIP := "$\x7bgoogle_compute_address." ++ "ip" ++ ".address\x7d" }] :=
  ⟨⟨_, rfl⟩,
    RenderTerraform_symbolic_address sampleDeps "proj" sampleInstance
      { Name := some "ip", IPAddress := some "192.0.2.1" } "ip" rfl rfl⟩

end gcetasks

namespace model

/-! ## Publication of the discovery documents -/

/-- What the type switch of `Build` leaves in `publicFileACL`: `true` exactly
for an S3 or GCS store whose URL is the issuer URL and whose bucket is
reported as not public, and nothing otherwise. -/
theorem publicFileACL_ok (b : IssuerDiscoveryModelBuilder) (issuer : String)
    (store : vfs.Path) (acl : Option Bool)
    (h : Build.publicFileACL b issuer store = .ok acl) :
    (acl = some true ∨ acl = none) ∧
    (∀ p, store = .S3Path p → ∃ url, p.GetHTTPsUrl b.Cluster.Spec.IsIPv6Only = .ok url ∧
      (acl = some true ↔ url = issuer ∧ p.IsBucketPublic = .ok false)) ∧
    (∀ p, store = .GSPath p → ∃ url, p.GetHTTPsUrl = .ok url ∧
      (acl = some true ↔ url = issuer ∧ p.IsBucketPublic = .ok false)) ∧
    (store = .MemFSPath → acl = none) := by
  cases store with
  | S3Path p =>
    unfold Build.publicFileACL at h
    cases hurl : p.GetHTTPsUrl b.Cluster.Spec.IsIPv6Only with
    | error err => simp [hurl] at h
    | ok url =>
      simp only [hurl] at h
      by_cases heq : url = issuer
      · simp only [heq, if_true] at h
        cases hpub : p.IsBucketPublic with
        | error err => simp [hpub] at h
        | ok isPublic =>
          simp only [hpub] at h
          cases isPublic <;> simp at h <;> subst h <;> simp [heq, hurl, hpub]
      · simp only [heq, if_false, Except.ok.injEq] at h
        subst h
        simp [heq, hurl]
  | GSPath p =>
    unfold Build.publicFileACL at h
    cases hurl : p.GetHTTPsUrl with
    | error err => simp [hurl] at h
    | ok url =>
      simp only [hurl] at h
      by_cases heq : url = issuer
      · simp only [heq, if_true] at h
        cases hpub : p.IsBucketPublic with
        | error err => simp [hpub] at h
        | ok isPublic =>
          simp only [hpub] at h
          cases isPublic <;> simp at h <;> subst h <;> simp [heq, hurl, hpub]
      · simp only [heq, if_false, Except.ok.injEq] at h
        subst h
        simp [heq, hurl]
  | MemFSPath =>
    simp [Build.publicFileACL] at h
    subst h
    simp
  | other typeName => simp [Build.publicFileACL] at h

/-- When no discovery store is configured, `Build` returns success and leaves
the context as it is. -/
theorem Build_no_store {PK Ctx : Type} (env : BuildEnv PK Ctx) (b : IssuerDiscoveryModelBuilder)
    (c : Ctx)
    (h : b.Cluster.Spec.ServiceAccountIssuerDiscovery = none ∨
      ∃ said, b.Cluster.Spec.ServiceAccountIssuerDiscovery = some said ∧
        said.DiscoveryStore = "") :
    (Build env b c).result = .ok () ∧ (Build env b c).added = [] ∧ (Build env b c).c = c := by
  unfold Build
  rcases h with h | ⟨said, h, hempty⟩
  · simp [h]
  · simp [h, hempty]

/-- The runs of `Build` with a discovery store: either nothing is added and
the result is not success, or the second `AddTask` ended the process, or the
two files were added with the access control that the type switch chose. -/
theorem Build_store {PK Ctx : Type} (env : BuildEnv PK Ctx) (b : IssuerDiscoveryModelBuilder)
    (c : Ctx) (said : kops.ServiceAccountIssuerDiscoveryConfig)
    (hsaid : b.Cluster.Spec.ServiceAccountIssuerDiscovery = some said)
    (hstore : said.DiscoveryStore ≠ "") :
    ((∃ f, (Build env b c).result = .error f) ∧ (Build env b c).added = [] ∧
      (Build env b c).c = c) ∨
    ((∃ msg, (Build env b c).result = .error (.exit msg)) ∧
      (Build env b c).added.length = 1) ∨
    ∃ skTask kubeAPIServer issuer discovery store acl c₁ c₂,
      b.Cluster.Spec.KubeAPIServer = some kubeAPIServer ∧
      kubeAPIServer.ServiceAccountIssuer = some issuer ∧
      buildDiscoveryJSON env.quoteJSON issuer = .ok discovery ∧
      env.BuildVfsPath said.DiscoveryStore = .ok store ∧
      Build.publicFileACL b issuer store = .ok acl ∧
      env.AddTask c
        { Contents := .keys { SigningKey := skTask }, Lifecycle := b.Lifecycle,
          Location := some "openid/v1/jwks", Name := some "keys.json",
          Base := some said.DiscoveryStore, PublicACL := acl } = .ok c₁ ∧
      env.AddTask c₁
        { Contents := .bytes discovery, Lifecycle := b.Lifecycle,
          Location := some ".well-known/openid-configuration", Name := some "discovery.json",
          Base := some said.DiscoveryStore, PublicACL := acl } = .ok c₂ ∧
      (Build env b c).result = .ok () ∧
      (Build env b c).added =
        [ { Contents := .keys { SigningKey := skTask }, Lifecycle := b.Lifecycle,
            Location := some "openid/v1/jwks", Name := some "keys.json",
            Base := some said.DiscoveryStore, PublicACL := acl },
          { Contents := .bytes discovery, Lifecycle := b.Lifecycle,
            Location := some ".well-known/openid-configuration", Name := some "discovery.json",
            Base := some said.DiscoveryStore, PublicACL := acl } ] ∧
      (Build env b c).c = c₂ := by
  unfold Build
  simp only [hsaid, hstore, if_false]
  cases htask : env.Tasks c "Keypair/service-account" with
  | none => exact Or.inl ⟨⟨_, rfl⟩, rfl, rfl⟩
  | some task =>
    cases task with
    | other => exact Or.inl ⟨⟨_, rfl⟩, rfl, rfl⟩
    | keypair skTask =>
      dsimp only
      cases hapi : b.Cluster.Spec.KubeAPIServer with
      | none => exact Or.inl ⟨⟨_, rfl⟩, rfl, rfl⟩
      | some kubeAPIServer =>
        dsimp only
        cases hissuer : kubeAPIServer.ServiceAccountIssuer with
        | none => exact Or.inl ⟨⟨_, rfl⟩, rfl, rfl⟩
        | some issuer =>
          dsimp only
          cases hjson : buildDiscoveryJSON env.quoteJSON issuer with
          | error f => exact Or.inl ⟨⟨_, rfl⟩, rfl, rfl⟩
          | ok discovery =>
            dsimp only
            cases hpath : env.BuildVfsPath said.DiscoveryStore with
            | error err => exact Or.inl ⟨⟨_, rfl⟩, rfl, rfl⟩
            | ok store =>
              dsimp only
              cases hacl : Build.publicFileACL b issuer store with
              | error f => exact Or.inl ⟨⟨_, rfl⟩, rfl, rfl⟩
              | ok acl =>
                dsimp only
                cases hadd₁ : env.AddTask c
                    { Contents := .keys { SigningKey := skTask }, Lifecycle := b.Lifecycle,
                      Location := some "openid/v1/jwks", Name := some "keys.json",
                      Base := some said.DiscoveryStore, PublicACL := acl } with
                | error msg => exact Or.inl ⟨⟨_, rfl⟩, rfl, rfl⟩
                | ok c₁ =>
                  dsimp only
                  cases hadd₂ : env.AddTask c₁
                      { Contents := .bytes discovery, Lifecycle := b.Lifecycle,
                        Location := some ".well-known/openid-configuration",
                        Name := some "discovery.json",
                        Base := some said.DiscoveryStore, PublicACL := acl } with
                  | error msg => exact Or.inr (Or.inl ⟨⟨_, rfl⟩, rfl⟩)
                  | ok c₂ =>
                    exact Or.inr (Or.inr ⟨skTask, kubeAPIServer, issuer, discovery, store, acl,
                      c₁, c₂, rfl, hissuer, hjson, rfl, hacl, hadd₁, hadd₂, rfl, rfl, rfl⟩)

/-- C11: when `Build` succeeds with a discovery store, it adds the key set at
`openid/v1/jwks` and the discovery document at
`.well-known/openid-configuration`, both with the same `PublicACL`. For an S3
or a GCS store, `PublicACL` is `true` if and only if the HTTPS URL of the store
equals the service-account issuer URL and the bucket is reported as not
public; in every other case, also for an in-memory store, it is unset. -/
theorem Build_publicACL {PK Ctx : Type} (env : BuildEnv PK Ctx)
    (b : IssuerDiscoveryModelBuilder) (c : Ctx)
    (said : kops.ServiceAccountIssuerDiscoveryConfig)
    (hsaid : b.Cluster.Spec.ServiceAccountIssuerDiscovery = some said)
    (hstore : said.DiscoveryStore ≠ "") (hok : (Build env b c).result = .ok ()) :
    ∃ kubeAPIServer issuer store keysFile discoveryFile,
      b.Cluster.Spec.KubeAPIServer = some kubeAPIServer ∧
      kubeAPIServer.ServiceAccountIssuer = some issuer ∧
      env.BuildVfsPath said.DiscoveryStore = .ok store ∧
      (Build env b c).added = [keysFile, discoveryFile] ∧
      keysFile.Location = some "openid/v1/jwks" ∧
      discoveryFile.Location = some ".well-known/openid-configuration" ∧
      keysFile.PublicACL = discoveryFile.PublicACL ∧
      (keysFile.PublicACL = some true ∨ keysFile.PublicACL = none) ∧
      (∀ p, store = .S3Path p → ∃ url, p.GetHTTPsUrl b.Cluster.Spec.IsIPv6Only = .ok url ∧
        (keysFile.PublicACL = some true ↔ url = issuer ∧ p.IsBucketPublic = .ok false)) ∧
      (∀ p, store = .GSPath p → ∃ url, p.GetHTTPsUrl = .ok url ∧
        (keysFile.PublicACL = some true ↔ url = issuer ∧ p.IsBucketPublic = .ok false)) ∧
      (store = .MemFSPath → keysFile.PublicACL = none) := by
  rcases Build_store env b c said hsaid hstore with ⟨⟨f, hf⟩, _, _⟩ | ⟨⟨msg, hmsg⟩, _⟩ | h
  · rw [hok] at hf
    cases hf
  · rw [hok] at hmsg
    cases hmsg
  · obtain ⟨skTask, kubeAPIServer, issuer, discovery, store, acl, c₁, c₂, hapi, hissuer, _,
      hpath, hacl, _, _, _, hadded, _⟩ := h
    obtain ⟨h1, h2, h3, h4⟩ := publicFileACL_ok b issuer store acl hacl
    exact ⟨kubeAPIServer, issuer, store, _, _, hapi, hissuer, hpath, hadded, rfl, rfl, rfl,
      h1, h2, h3, h4⟩

/-- C11, on the sample builder: the bucket is served at the issuer URL and is
not public, and both files are marked public. -/
theorem Build_publicACL_witness :
    (Build sampleBuildEnv sampleBuilder []).result = .ok () ∧
    ((Build sampleBuildEnv sampleBuilder []).added.map fun file => file.PublicACL)
      = [some true, some true] ∧
    ∃ kubeAPIServer issuer store keysFile discoveryFile,
      sampleBuilder.Cluster.Spec.KubeAPIServer = some kubeAPIServer ∧
      kubeAPIServer.ServiceAccountIssuer = some issuer ∧
      sampleBuildEnv.BuildVfsPath "s3://bucket/oidc" = .ok store ∧
      (Build sampleBuildEnv sampleBuilder []).added = [keysFile, discoveryFile] ∧
      keysFile.Location = some "openid/v1/jwks" ∧
      discoveryFile.Location = some ".well-known/openid-configuration" ∧
      keysFile.PublicACL = discoveryFile.PublicACL ∧
      (keysFile.PublicACL = some true ∨ keysFile.PublicACL = none) ∧
      (∀ p, store = .S3Path p →
        ∃ url, p.GetHTTPsUrl sampleBuilder.Cluster.Spec.IsIPv6Only = .ok url ∧
          (keysFile.PublicACL = some true ↔ url = issuer ∧ p.IsBucketPublic = .ok false)) ∧
      (∀ p, store = .GSPath p → ∃ url, p.GetHTTPsUrl = .ok url ∧
        (keysFile.PublicACL = some true ↔ url = issuer ∧ p.IsBucketPublic = .ok false)) ∧
      (store = .MemFSPath → keysFile.PublicACL = none) :=
  ⟨rfl, rfl,
    Build_publicACL sampleBuildEnv sampleBuilder [] { DiscoveryStore := "s3://bucket/oidc" } rfl
      (by decide) rfl⟩

/-- C17: whenever `Build` returns an error, it has added no task and the
context is as before; when no discovery store is configured it returns success
and adds nothing; and on every success with a discovery store it adds exactly
two tasks, `keys.json` and then `discovery.json`, with the path of the store as
the base of both. -/
theorem Build_all_or_nothing {PK Ctx : Type} (env : BuildEnv PK Ctx)
    (b : IssuerDiscoveryModelBuilder) (c : Ctx) :
    (∀ msg, (Build env b c).result = .error (.error msg) →
      (Build env b c).added = [] ∧ (Build env b c).c = c) ∧
    ((b.Cluster.Spec.ServiceAccountIssuerDiscovery = none ∨
        ∃ said, b.Cluster.Spec.ServiceAccountIssuerDiscovery = some said ∧
          said.DiscoveryStore = "") →
      (Build env b c).result = .ok () ∧ (Build env b c).added = [] ∧ (Build env b c).c = c) ∧
    (∀ said, b.Cluster.Spec.ServiceAccountIssuerDiscovery = some said →
      said.DiscoveryStore ≠ "" → (Build env b c).result = .ok () →
      ∃ keysFile discoveryFile c₁ c₂,
        (Build env b c).added = [keysFile, discoveryFile] ∧
        keysFile.Name = some "keys.json" ∧ discoveryFile.Name = some "discovery.json" ∧
        keysFile.Base = some said.DiscoveryStore ∧
        discoveryFile.Base = some said.DiscoveryStore ∧
        env.AddTask c keysFile = .ok c₁ ∧ env.AddTask c₁ discoveryFile = .ok c₂ ∧
        (Build env b c).c = c₂) := by
  refine ⟨?_, Build_no_store env b c, ?_⟩
  · intro msg hmsg
    cases hsaid : b.Cluster.Spec.ServiceAccountIssuerDiscovery with
    | none => exact (Build_no_store env b c (Or.inl hsaid)).2
    | some said =>
      by_cases hstore : said.DiscoveryStore = ""
      · exact (Build_no_store env b c (Or.inr ⟨said, hsaid, hstore⟩)).2
      · rcases Build_store env b c said hsaid hstore with ⟨_, h⟩ | ⟨⟨m, hm⟩, _⟩ | h
        · exact h
        · rw [hmsg] at hm
          cases hm
        · obtain ⟨_, _, _, _, _, _, _, _, _, _, _, _, _, _, _, hok, _, _⟩ := h
          rw [hmsg] at hok
          cases hok
  · intro said hsaid hstore hok
    rcases Build_store env b c said hsaid hstore with ⟨⟨f, hf⟩, _, _⟩ | ⟨⟨m, hm⟩, _⟩ | h
    · rw [hok] at hf
      cases hf
    · rw [hok] at hm
      cases hm
    · obtain ⟨skTask, kubeAPIServer, issuer, discovery, store, acl, c₁, c₂, _, _, _, _, _,
        hadd₁, hadd₂, _, hadded, hc⟩ := h
      exact ⟨_, _, c₁, c₂, hadded, rfl, rfl, rfl, rfl, hadd₁, hadd₂, hc⟩

/-- C17, on the sample builder: in a context without the key pair task,
`Build` returns an error and adds nothing; in the empty context it adds the
two files. -/
theorem Build_all_or_nothing_witness :
    (Build sampleBuildEnv sampleBuilder [sampleOtherFile]).result
      = .error (.error "keypair/service-account task not found") ∧
    (Build sampleBuildEnv sampleBuilder [sampleOtherFile]).added = [] ∧
    ((Build sampleBuildEnv sampleBuilder []).added.map fun file => file.Name)
      = [some "keys.json", some "discovery.json"] :=
  ⟨rfl,
    ((Build_all_or_nothing sampleBuildEnv sampleBuilder [sampleOtherFile]).1
      "keypair/service-account task not found" rfl).1,
    rfl⟩

end model

namespace gcetasks

/-! ## The scope table -/

/-- A search for the one element that satisfies a test gives the same result
in every order. -/
theorem find?_perm {α : Type} (p : α → Bool) (l₁ l₂ : List α) (hperm : l₁.Perm l₂)
    (huniq : ∀ a ∈ l₁, ∀ b ∈ l₁, p a = true → p b = true → a = b) :
    l₁.find? p = l₂.find? p := by
  cases h₁ : l₁.find? p with
  | none =>
    have hnone : ∀ x ∈ l₂, ¬ p x = true := fun x hx =>
      (List.find?_eq_none.1 h₁) x (hperm.mem_iff.2 hx)
    exact (List.find?_eq_none.2 hnone).symm
  | some a =>
    have ha : a ∈ l₁ := List.mem_of_find?_eq_some h₁
    have hpa : p a = true := List.find?_some h₁
    cases h₂ : l₂.find? p with
    | none => exact absurd hpa ((List.find?_eq_none.1 h₂) a (hperm.mem_iff.1 ha))
    | some b =>
      have hb : b ∈ l₁ := hperm.mem_iff.2 (List.mem_of_find?_eq_some h₂)
      have hpb : p b = true := List.find?_some h₂
      rw [huniq a ha b hb hpa hpb]

/-- C16: the eight long-form URLs of `scopeAliases` are pairwise distinct, so
`scopeToShortForm` returns the same string in whatever order its loop visits
the table; for every alias `k` of the table
`scopeToShortForm (scopeToLongForm k) = k`, for every long-form URL `v` of the
table `scopeToLongForm (scopeToShortForm v) = v`, and a string that is neither
an alias nor a URL of the table is returned unchanged by both functions. -/
theorem scopeAliases_well_defined :
    (scopeAliases.map fun kv => kv.2).Nodup ∧ scopeAliases.length = 8 ∧
    (∀ order : List (String × String), order.Perm scopeAliases →
      ∀ s, scopeToShortForm.visiting order s = scopeToShortForm s) ∧
    (∀ kv ∈ scopeAliases, scopeToShortForm (scopeToLongForm kv.1) = kv.1) ∧
    (∀ kv ∈ scopeAliases, scopeToLongForm (scopeToShortForm kv.2) = kv.2) ∧
    ∀ s, (∀ kv ∈ scopeAliases, kv.1 ≠ s ∧ kv.2 ≠ s) →
      scopeToLongForm s = s ∧ scopeToShortForm s = s := by
  have hnodup : (scopeAliases.map fun kv => kv.2).Nodup := by decide
  refine ⟨hnodup, rfl, ?_, by decide, by decide, ?_⟩
  · intro order hperm s
    unfold scopeToShortForm.visiting scopeToShortForm
    have huniq : ∀ a ∈ scopeAliases, ∀ b ∈ scopeAliases,
        decide (a.2 = s) = true → decide (b.2 = s) = true → a = b := by
      intro a ha b hb hpa hpb
      have hab : a.2 = b.2 := by
        rw [of_decide_eq_true hpa, of_decide_eq_true hpb]
      exact List.inj_on_of_nodup_map hnodup ha hb hab
    rw [find?_perm (fun kv => decide (kv.2 = s)) order scopeAliases hperm
      (fun a ha b hb => huniq a (hperm.mem_iff.1 ha) b (hperm.mem_iff.1 hb))]
  · intro s hs
    constructor
    · unfold scopeToLongForm
      cases hf : scopeAliases.find? (fun kv => kv.1 = s) with
      | none => rfl
      | some kv =>
        have hmem : kv ∈ scopeAliases := List.mem_of_find?_eq_some hf
        have hkv : kv.1 = s := by simpa using List.find?_some hf
        exact absurd hkv (hs kv hmem).1
    · exact scopeToShortForm_of_not_url s (fun kv hkv => (hs kv hkv).2)

end gcetasks

namespace gcetasks

/-! ## Image URLs -/

theorem splitChars_of_not_mem (sep : Char) (l : List Char) (h : sep ∉ l) :
    splitChars sep l = [l] := by
  induction l with
  | nil => rfl
  | cons c cs ih =>
    have hc : c ≠ sep := fun hc => h (hc ▸ List.mem_cons_self _ _)
    have hcs : sep ∉ cs := fun hcs => h (List.mem_cons_of_mem _ hcs)
    simp [splitChars, hc, ih hcs]

theorem splitChars_append (sep : Char) (l rest : List Char) (h : sep ∉ l) :
    splitChars sep (l ++ sep :: rest) = l :: splitChars sep rest := by
  induction l with
  | nil => simp [splitChars]
  | cons c cs ih =>
    have hc : c ≠ sep := fun hc => h (hc ▸ List.mem_cons_self _ _)
    have hcs : sep ∉ cs := fun hcs => h (List.mem_cons_of_mem _ hcs)
    simp [splitChars, hc, ih hcs]

theorem Split_image_url (project name : String) (hproject : '/' ∉ project.toList)
    (hname : '/' ∉ name.toList) :
    Split ("https://www.googleapis.com/compute/v1/projects/" ++ project ++ "/global/images/"
        ++ name) '/'
      = ["https:", "", "www.googleapis.com", "compute", "v1", "projects", project, "global",
          "images", name] := by
  have hlist : ("https://www.googleapis.com/compute/v1/projects/" ++ project
        ++ "/global/images/" ++ name).toList
      = "https:".toList ++ '/' :: ("".toList ++ '/' :: ("www.googleapis.com".toList ++ '/' ::
          ("compute".toList ++ '/' :: ("v1".toList ++ '/' :: ("projects".toList ++ '/' ::
            (project.toList ++ '/' :: ("global".toList ++ '/' :: ("images".toList ++ '/' ::
              name.toList)))))))) := by
    simp only [String.toList, String.data_append]
    simp
  unfold Split
  rw [hlist, splitChars_append _ _ _ (by decide), splitChars_append _ _ _ (by decide),
    splitChars_append _ _ _ (by decide), splitChars_append _ _ _ (by decide),
    splitChars_append _ _ _ (by decide), splitChars_append _ _ _ (by decide),
    splitChars_append _ _ _ hproject, splitChars_append _ _ _ (by decide),
    splitChars_append _ _ _ (by decide), splitChars_of_not_mem _ _ hname]
  rfl

theorem Split_name (name : String) (hname : '/' ∉ name.toList) : Split name '/' = [name] := by
  unfold Split
  rw [splitChars_of_not_mem _ _ hname]
  rfl

theorem Split_project_name (project name : String) (hproject : '/' ∉ project.toList)
    (hname : '/' ∉ name.toList) : Split (project ++ "/" ++ name) '/' = [project, name] := by
  have hlist : (project ++ "/" ++ name).toList = project.toList ++ '/' :: name.toList := by
    simp only [String.toList, String.data_append]
    simp
  unfold Split
  rw [hlist, splitChars_append _ _ _ hproject, splitChars_of_not_mem _ _ hname]
  rfl

/-- The parse of an image URL, by the parser modelled from the spec. -/
theorem ParseGoogleCloudURL_image (project name : String) (hproject : '/' ∉ project.toList)
    (hname : '/' ∉ name.toList) :
    gce.ParseGoogleCloudURL ("https://www.googleapis.com/compute/v1/projects/" ++ project
        ++ "/global/images/" ++ name)
      = .ok { Project := project, Name := name } := by
  unfold gce.ParseGoogleCloudURL
  rw [Split_image_url project name hproject hname]
  rfl

/-- C12 fails for an image spec that names the default project: with the
default project `proj`, the spec `proj/img` is rendered to the URL of the image
`img` of `proj`, which `ShortenImageURL` shortens to `img`; and with a default
project that holds a `/` the URL is not parsed. -/
theorem image_round_trip_counterexample :
    BuildImageURL sampleDepsParsing.quote "proj" "proj/img"
      = .ok "https://www.googleapis.com/compute/v1/projects/proj/global/images/img" ∧
    ShortenImageURL sampleDepsParsing "proj"
      "https://www.googleapis.com/compute/v1/projects/proj/global/images/img" = .ok "img" ∧
    "img" ≠ "proj/img" ∧
    BuildImageURL sampleDepsParsing.quote "a/b" "img"
      = .ok "https://www.googleapis.com/compute/v1/projects/a/b/global/images/img" ∧
    ShortenImageURL sampleDepsParsing "a/b"
      "https://www.googleapis.com/compute/v1/projects/a/b/global/images/img"
      = .error ("unknown URL: "
          ++ "https://www.googleapis.com/compute/v1/projects/a/b/global/images/img") := by
  refine ⟨rfl, rfl, by decide, rfl, rfl⟩

/-- C12, amended: for every default project `p` without `/` and every image
spec `name`, or `project/name` with `project` other than `p` (components not
empty and without `/`), `ShortenImageURL p (BuildImageURL p spec)` succeeds
and returns the spec; the spec `p/name`, which names the default project, comes
back as `name`. -/
theorem image_round_trip (deps : Deps)
    (hparse : deps.ParseGoogleCloudURL = gce.ParseGoogleCloudURL) (p project name : String)
    (hp : '/' ∉ p.toList) (hproject : '/' ∉ project.toList) (hname : '/' ∉ name.toList)
    (_hproject_ne : project ≠ "") (_hname_ne : name ≠ "") :
    (∃ url, BuildImageURL deps.quote p name = .ok url ∧
      ShortenImageURL deps p url = .ok name) ∧
    (project ≠ p → ∃ url, BuildImageURL deps.quote p (project ++ "/" ++ name) = .ok url ∧
      ShortenImageURL deps p url = .ok (project ++ "/" ++ name)) ∧
    ∃ url, BuildImageURL deps.quote p (p ++ "/" ++ name) = .ok url ∧
      ShortenImageURL deps p url = .ok name := by
  refine ⟨⟨"https://www.googleapis.com/compute/v1/projects/" ++ p ++ "/global/images/" ++ name,
      ?_, ?_⟩,
    fun hne => ⟨"https://www.googleapis.com/compute/v1/projects/" ++ project
      ++ "/global/images/" ++ name, ?_, ?_⟩,
    ⟨"https://www.googleapis.com/compute/v1/projects/" ++ p ++ "/global/images/" ++ name,
      ?_, ?_⟩⟩
  · simp only [BuildImageURL, Split_name name hname]
  · simp only [ShortenImageURL, hparse, ParseGoogleCloudURL_image p name hp hname, if_true]
  · simp only [BuildImageURL, Split_project_name project name hproject hname]
  · simp only [ShortenImageURL, hparse, ParseGoogleCloudURL_image project name hproject hname,
      hne, if_false]
  · simp only [BuildImageURL, Split_project_name p name hp hname]
  · simp only [ShortenImageURL, hparse, ParseGoogleCloudURL_image p name hp hname, if_true]

/-- C12, amended, on the default project `proj` and the specs `img` and
`other/img`. -/
theorem image_round_trip_witness :
    (∃ url, BuildImageURL sampleDepsParsing.quote "proj" "img" = .ok url ∧
      ShortenImageURL sampleDepsParsing "proj" url = .ok "img") ∧
    ("other" ≠ "proj" →
      ∃ url, BuildImageURL sampleDepsParsing.quote "proj" ("other" ++ "/" ++ "img") = .ok url ∧
        ShortenImageURL sampleDepsParsing "proj" url = .ok ("other" ++ "/" ++ "img")) ∧
    ∃ url, BuildImageURL sampleDepsParsing.quote "proj" ("proj" ++ "/" ++ "img") = .ok url ∧
      ShortenImageURL sampleDepsParsing "proj" url = .ok "img" :=
  image_round_trip sampleDepsParsing rfl "proj" "other" "img" (by decide) (by decide) (by decide)
    (by decide) (by decide)

/-! ## What `mapToGCE` returns -/

theorem deref_ok {α : Type} (p : Option α) (a : α) (h : deref p = .ok a) : p = some a := by
  cases p with
  | none => simp [deref] at h
  | some b =>
    simp only [deref, Except.ok.injEq] at h
    rw [h]

/-- When `mapToGCE` returns an instance, each of its steps has completed, and
the instance carries their results. -/
theorem mapToGCE_ok (deps : Deps) (project : String)
    (ipAddressResolver : Address → Except Fault (Option String)) (e : Instance)
    (i : compute.Instance) (h : mapToGCE deps project ipAddressResolver e = .ok i) :
    ∃ zone image sourceImage moreDisks ni metadataItems canIPForward machineType name,
      e.Zone = some zone ∧ e.Image = some image ∧
      BuildImageURL deps.quote project image = .ok sourceImage ∧
      mapToGCE.disks deps project (e.Disks.getD []) = .ok moreDisks ∧
      mapToGCE.networkInterface deps project ipAddressResolver e = .ok ni ∧
      mapToGCE.metadataItems deps (e.Metadata.getD []) = .ok metadataItems ∧
      e.CanIPForward = some canIPForward ∧ e.MachineType = some machineType ∧
      e.Name = some name ∧
      i.Name = name ∧ i.Metadata = some { Items := metadataItems } ∧
      i.Tags = e.Tags.map (fun items => { Items := some items }) ∧
      i.NetworkInterfaces = [ni] ∧ i.Zone = "" := by
  unfold mapToGCE at h
  simp only [bind, Except.bind, pure, Except.pure] at h
  cases h1 : deref e.Zone with
  | error f => simp [h1] at h
  | ok zone =>
    simp only [h1] at h
    cases h2 : deref e.Image with
    | error f => simp [h2] at h
    | ok image =>
      simp only [h2] at h
      cases h3 : BuildImageURL deps.quote project image with
      | error f => simp [h3] at h
      | ok sourceImage =>
        simp only [h3] at h
        cases h4 : mapToGCE.disks deps project (e.Disks.getD []) with
        | error f => simp [h4] at h
        | ok moreDisks =>
          simp only [h4] at h
          cases h5 : mapToGCE.networkInterface deps project ipAddressResolver e with
          | error f => simp [h5] at h
          | ok ni =>
            simp only [h5] at h
            cases h6 : mapToGCE.metadataItems deps (e.Metadata.getD []) with
            | error f => simp [h6] at h
            | ok metadataItems =>
              simp only [h6] at h
              cases h7 : deref e.CanIPForward with
              | error f => simp [h7] at h
              | ok canIPForward =>
                simp only [h7] at h
                cases h8 : deref e.MachineType with
                | error f => simp [h8] at h
                | ok machineType =>
                  simp only [h8] at h
                  cases h9 : deref e.Name with
                  | error f => simp [h9] at h
                  | ok name =>
                    simp only [h9, Except.ok.injEq] at h
                    refine ⟨zone, image, sourceImage, moreDisks, ni, metadataItems,
                      canIPForward, machineType, name, deref_ok _ _ h1, deref_ok _ _ h2, h3,
                      rfl, rfl, rfl, deref_ok _ _ h7, deref_ok _ _ h8, deref_ok _ _ h9, ?_, ?_,
                      ?_, ?_, ?_⟩
                    · rw [← h]
                    · rw [← h]
                    · rw [← h]
                      cases e.Tags <;> rfl
                    · rw [← h]
                    · rw [← h]

/-- With an address that has no IP, the network interface is not built: the
block fails on the network URL or with the error of the unresolved address. -/
theorem networkInterface_unresolved (deps : Deps) (project : String)
    (ipAddressResolver : Address → Except Fault (Option String)) (e : Instance) (ip : Address)
    (hip : e.IPAddress = some ip) (hres : ipAddressResolver ip = .ok none) :
    (∀ ni, mapToGCE.networkInterface deps project ipAddressResolver e ≠ .ok ni) ∧
    ∀ network, deps.NetworkURL e.Network project = .ok network →
      mapToGCE.networkInterface deps project ipAddressResolver e
        = .error (.error "instance IP address has not yet been created") := by
  unfold mapToGCE.networkInterface
  simp only [hip, hres, bind, Except.bind, pure, Except.pure, throw, throwThe,
    MonadExceptOf.throw]
  cases hnet : deps.NetworkURL e.Network project with
  | error f => simp
  | ok network => simp

/-- With an address that has no IP, `mapToGCE` does not return an instance,
and it returns the error of the unresolved address when it reaches the
resolver. -/
theorem mapToGCE_unresolved (deps : Deps) (project : String)
    (ipAddressResolver : Address → Except Fault (Option String)) (e : Instance) (ip : Address)
    (hip : e.IPAddress = some ip) (hres : ipAddressResolver ip = .ok none) :
    (∀ i, mapToGCE deps project ipAddressResolver e ≠ .ok i) ∧
    (mapToGCE.reachesResolver deps project e →
      mapToGCE deps project ipAddressResolver e
        = .error (.error "instance IP address has not yet been created")) := by
  obtain ⟨hnot, herr⟩ := networkInterface_unresolved deps project ipAddressResolver e ip hip hres
  constructor
  · intro i hi
    obtain ⟨_, _, _, _, ni, _, _, _, _, _, _, _, _, hni, _⟩ :=
      mapToGCE_ok deps project ipAddressResolver e i hi
    exact hnot ni hni
  · rintro ⟨zone, image, sourceImage, moreDisks, network, hz, him, hsrc, hdisks, hnet⟩
    unfold mapToGCE
    simp only [hz, him, hsrc, hdisks, herr network hnet, deref, bind, Except.bind]

/-! ## The update path of `RenderGCE` -/

/-- When `mapToGCE` fails, `RenderGCE` returns its failure and makes no call. -/
theorem RenderGCE_of_mapToGCE_error (deps : Deps) (cloud : gce.GCECloud) (a : Option Instance)
    (e changes : Instance)
    (hmap : ∀ i, mapToGCE deps cloud.Project RenderGCE.ipAddressResolver e ≠ .ok i) :
    (RenderGCE deps cloud a e changes).calls = [] ∧
    (RenderGCE deps cloud a e changes).changes = changes ∧
    (RenderGCE deps cloud a e changes).result ≠ .ok () ∧
    ∀ zone f, e.Zone = some zone →
      mapToGCE deps cloud.Project RenderGCE.ipAddressResolver e = .error f →
      (RenderGCE deps cloud a e changes).result = .error f := by
  unfold RenderGCE
  cases hz : e.Zone with
  | none => simp
  | some zone =>
    dsimp only
    cases hm : mapToGCE deps cloud.Project RenderGCE.ipAddressResolver e with
    | ok i => exact absurd hm (hmap i)
    | error f => simp

/-- The update path of `RenderGCE` when `changes.Metadata` is not set. -/
theorem RenderGCE_update_no_metadata (deps : Deps) (cloud : gce.GCECloud) (a e changes : Instance)
    (i : compute.Instance)
    (hmap : mapToGCE deps cloud.Project RenderGCE.ipAddressResolver e = .ok i)
    (hmd : changes.Metadata = none) :
    RenderGCE deps cloud (some a) e changes =
      if changes.isZero = true then ⟨.ok (), [], changes⟩
      else ⟨.error (.error ("cannot apply changes to Instance: "
        ++ deps.formatInstance changes)), [], changes⟩ := by
  obtain ⟨zone, hz⟩ := mapToGCE_zone deps _ _ e i hmap
  unfold RenderGCE
  simp only [hz, hmap, hmd]
  cases changes.isZero <;> simp

/-- The update path of `RenderGCE` when `changes.Metadata` is set. -/
theorem RenderGCE_update_metadata (deps : Deps) (cloud : gce.GCECloud) (a e changes : Instance)
    (i : compute.Instance) (zone : String) (items : List compute.MetadataItems)
    (hz : e.Zone = some zone)
    (hmap : mapToGCE deps cloud.Project RenderGCE.ipAddressResolver e = .ok i)
    (hitems : i.Metadata = some { Items := items }) (hmd : changes.Metadata ≠ none) :
    RenderGCE deps cloud (some a) e changes =
      match cloud.InstancesSetMetadata cloud.Project zone i.Name
          { Items := items, Fingerprint := a.metadataFingerprint } with
      | .error err =>
        ⟨.error (.error ("error setting metadata on instance: " ++ err.msg)),
          [.InstancesSetMetadata cloud.Project zone i.Name
            { Items := items, Fingerprint := a.metadataFingerprint }], changes⟩
      | .ok op =>
        match cloud.WaitForOp op with
        | .error err =>
          ⟨.error (.error ("error setting metadata on instance: " ++ err.msg)),
            [.InstancesSetMetadata cloud.Project zone i.Name
              { Items := items, Fingerprint := a.metadataFingerprint }, .WaitForOp op], changes⟩
        | .ok _ =>
          if ({ changes with Metadata := none } : Instance).isZero = true then
            ⟨.ok (),
              [.InstancesSetMetadata cloud.Project zone i.Name
                { Items := items, Fingerprint := a.metadataFingerprint }, .WaitForOp op],
              { changes with Metadata := none }⟩
          else
            ⟨.error (.error ("cannot apply changes to Instance: "
                ++ deps.formatInstance { changes with Metadata := none })),
              [.InstancesSetMetadata cloud.Project zone i.Name
                { Items := items, Fingerprint := a.metadataFingerprint }, .WaitForOp op],
              { changes with Metadata := none }⟩ := by
  unfold RenderGCE
  simp only [hz, hmap, hitems, ne_eq, hmd, not_false_eq_true, if_true]
  cases cloud.InstancesSetMetadata cloud.Project zone i.Name
      { Items := items, Fingerprint := a.metadataFingerprint } with
  | error err => rfl
  | ok op =>
    dsimp only
    cases cloud.WaitForOp op with
    | error err => rfl
    | ok u =>
      dsimp only
      cases ({ changes with Metadata := none } : Instance).isZero <;> simp

theorem clear_Metadata_of_none (changes : Instance) (hmd : changes.Metadata = none) :
    ({ changes with Metadata := none } : Instance) = changes := by
  cases changes
  simp only at hmd
  subst hmd
  rfl

/-- C13: for an existing instance, when `mapToGCE` and the backend calls
succeed, `RenderGCE` returns success if and only if no field of `changes` other
than `Metadata` is set; otherwise it returns the error
`cannot apply changes to Instance: ...`. `CheckChanges` accepts every input. -/
theorem RenderGCE_rejects_changes (deps : Deps) (cloud : gce.GCECloud) (a e changes : Instance)
    (i : compute.Instance)
    (hmap : mapToGCE deps cloud.Project RenderGCE.ipAddressResolver e = .ok i)
    (hset : ∀ project zone name metadata,
      ∃ op, cloud.InstancesSetMetadata project zone name metadata = .ok op)
    (hwait : ∀ op, cloud.WaitForOp op = .ok ()) :
    ((RenderGCE deps cloud (some a) e changes).result = .ok () ↔
      ({ changes with Metadata := none } : Instance).allFieldsEmpty) ∧
    (¬ ({ changes with Metadata := none } : Instance).allFieldsEmpty →
      (RenderGCE deps cloud (some a) e changes).result
        = .error (.error ("cannot apply changes to Instance: "
            ++ deps.formatInstance { changes with Metadata := none }))) ∧
    ∀ a' e' changes', CheckChanges a' e' changes' = .ok () := by
  have hresult : (RenderGCE deps cloud (some a) e changes).result =
      if ({ changes with Metadata := none } : Instance).isZero = true then .ok ()
      else .error (.error ("cannot apply changes to Instance: "
        ++ deps.formatInstance { changes with Metadata := none })) := by
    by_cases hmd : changes.Metadata = none
    · rw [RenderGCE_update_no_metadata deps cloud a e changes i hmap hmd,
        clear_Metadata_of_none changes hmd]
      cases changes.isZero <;> simp
    · obtain ⟨zone, _, _, _, _, items, _, _, _, hz, _, _, _, _, _, _, _, _, _, hitems, _⟩ :=
        mapToGCE_ok deps _ _ e i hmap
      rw [RenderGCE_update_metadata deps cloud a e changes i zone items hz hmap hitems hmd]
      obtain ⟨op, hop⟩ := hset cloud.Project zone i.Name
        { Items := items, Fingerprint := a.metadataFingerprint }
      simp only [hop, hwait op]
      cases ({ changes with Metadata := none } : Instance).isZero <;> simp
  have hiff : ({ changes with Metadata := none } : Instance).isZero = true ↔
      ({ changes with Metadata := none } : Instance).allFieldsEmpty := by
    rw [isZero_iff, allFieldsEmpty_iff]
  refine ⟨?_, ?_, fun _ _ _ => rfl⟩
  · rw [hresult, ← hiff]
    cases ({ changes with Metadata := none } : Instance).isZero <;> simp
  · intro hne
    rw [hresult]
    have hfalse : ¬ ({ changes with Metadata := none } : Instance).isZero = true :=
      fun h => hne (hiff.1 h)
    simp [hfalse]

/-- C13, on the sample: a change of the tags next to the metadata is
rejected, a change of the metadata alone is applied. -/
theorem RenderGCE_rejects_changes_witness :
    mapToGCE sampleDeps sampleCloud.Project RenderGCE.ipAddressResolver sampleInstance
      = .ok sampleMapped ∧
    (RenderGCE sampleDeps sampleCloud (some sampleActual) sampleInstance
        { Metadata := some [("k", .string "v")], Tags := some ["node"] }).result
      = .error (.error ("cannot apply changes to Instance: "
          ++ sampleDeps.formatInstance { Tags := some ["node"] })) ∧
    (RenderGCE sampleDeps sampleCloud (some sampleActual) sampleInstance
        { Metadata := some [("k", .string "v")] }).result = .ok () :=
  ⟨rfl,
    (RenderGCE_rejects_changes sampleDeps sampleCloud sampleActual sampleInstance
      { Metadata := some [("k", .string "v")], Tags := some ["node"] } sampleMapped rfl
      (fun _ _ _ _ => ⟨_, rfl⟩) (fun _ => rfl)).2.1 (by simp [Instance.allFieldsEmpty]),
    (RenderGCE_rejects_changes sampleDeps sampleCloud sampleActual sampleInstance
      { Metadata := some [("k", .string "v")] } sampleMapped rfl
      (fun _ _ _ _ => ⟨_, rfl⟩) (fun _ => rfl)).1.2 (by simp [Instance.allFieldsEmpty])⟩

/-! ## An address without IP -/

/-- C15: the resolver of `RenderGCE` returns the `IPAddress` field of the
address descriptor and makes no call; and for every expected instance whose
`IPAddress` is set but has no IP, `RenderGCE` makes no call at all and does not
return success, whether or not the instance exists: it returns the error
`instance IP address has not yet been created` whenever `mapToGCE` reaches the
resolver. -/
theorem RenderGCE_unresolved_address (deps : Deps) (cloud : gce.GCECloud) (a : Option Instance)
    (e changes : Instance) (ip : Address) (hip : e.IPAddress = some ip)
    (hnone : ip.IPAddress = none) :
    (∀ ip', RenderGCE.ipAddressResolver ip' = .ok ip'.IPAddress) ∧
    (RenderGCE deps cloud a e changes).calls = [] ∧
    (RenderGCE deps cloud a e changes).result ≠ .ok () ∧
    (mapToGCE.reachesResolver deps cloud.Project e →
      (RenderGCE deps cloud a e changes).result
        = .error (.error "instance IP address has not yet been created")) := by
  have hres : RenderGCE.ipAddressResolver ip = .ok none := by
    unfold RenderGCE.ipAddressResolver
    rw [hnone]
  obtain ⟨hnot, herr⟩ := mapToGCE_unresolved deps cloud.Project _ e ip hip hres
  obtain ⟨hcalls, _, hresult, hfail⟩ := RenderGCE_of_mapToGCE_error deps cloud a e changes hnot
  refine ⟨fun _ => rfl, hcalls, hresult, ?_⟩
  intro hreach
  have hmapErr := herr hreach
  obtain ⟨zone, _, _, _, _, hz, _⟩ := hreach
  exact hfail zone _ hz hmapErr

/-- C15, on the sample instance with an address without IP, absent and
existing. -/
theorem RenderGCE_unresolved_address_witness :
    mapToGCE.reachesResolver sampleDeps sampleCloud.Project sampleUnresolved ∧
    (RenderGCE sampleDeps sampleCloud none sampleUnresolved sampleUnresolved).calls = [] ∧
    (RenderGCE sampleDeps sampleCloud none sampleUnresolved sampleUnresolved).result
      = .error (.error "instance IP address has not yet been created") ∧
    (RenderGCE sampleDeps sampleCloud (some sampleActual) sampleUnresolved {}).calls = [] ∧
    (RenderGCE sampleDeps sampleCloud (some sampleActual) sampleUnresolved {}).result
      = .error (.error "instance IP address has not yet been created") :=
  have hreach : mapToGCE.reachesResolver sampleDeps sampleCloud.Project sampleUnresolved :=
    ⟨"z", "img", _, [], _, rfl, rfl, rfl, rfl, rfl⟩
  have hcreate := RenderGCE_unresolved_address sampleDeps sampleCloud none sampleUnresolved
    sampleUnresolved { Name := some "ip", IPAddress := none } rfl rfl
  have hupdate := RenderGCE_unresolved_address sampleDeps sampleCloud (some sampleActual)
    sampleUnresolved {} { Name := some "ip", IPAddress := none } rfl rfl
  ⟨hreach, hcreate.2.1, hcreate.2.2.2 hreach, hupdate.2.1, hupdate.2.2.2 hreach⟩

/-! ## The metadata fingerprint -/

/-- The snapshot that `Find` returns carries the fingerprint of the metadata
of the instance that the backend returned. -/
theorem Find_fingerprint (deps : Deps) (cloud : gce.GCECloud) (e actual : Instance)
    (h : (Find deps cloud e).result = .ok (some actual)) :
    ∃ zone name r, e.Zone = some zone ∧ e.Name = some name ∧
      cloud.InstancesGet cloud.Project zone name = .ok r ∧
      ∀ m, r.Metadata = some m → actual.metadataFingerprint = m.Fingerprint := by
  unfold Find at h
  cases hz : e.Zone with
  | none => simp [hz, Traced.fail] at h
  | some zone =>
    cases hn : e.Name with
    | none => simp [hz, hn, Traced.fail] at h
    | some name =>
      simp only [hz, hn] at h
      cases hg : cloud.InstancesGet cloud.Project zone name with
      | error err =>
        simp only [hg] at h
        by_cases hnf : gce.IsNotFound err = true
        · simp [hnf] at h
        · simp [hnf] at h
      | ok r =>
        simp only [hg] at h
        refine ⟨zone, name, r, rfl, rfl, hg, ?_⟩
        intro m hm
        obtain ⟨_, _, h2⟩ := bind_result_ok _ _ _ h
        obtain ⟨snapshot, hsnap, h3⟩ := bind_result_ok _ _ _ h2
        simp only [Traced.pure, Except.ok.injEq, Option.some.injEq] at h3
        subst h3
        unfold Find.snapshot at hsnap
        cases ht : r.Tags with
        | none => simp [ht, Traced.fail] at hsnap
        | some tags =>
          simp only [ht] at hsnap
          obtain ⟨a₁, _, h4⟩ := bind_result_ok _ _ _ hsnap
          obtain ⟨a₂, _, h5⟩ := bind_result_ok _ _ _ h4
          simp only [Traced.pure, Except.ok.injEq] at h5
          rw [← h5]
          simp [Find.metadata, hm]

/-- C18 fails when `mapToGCE` fails: on the cloud that has the boot disk,
`Find` returns a snapshot with the fingerprint `fp`; for that existing
instance, with `changes.Metadata` set and an expected address that has no IP,
`RenderGCE` returns an error and makes no `SetMetadata` call. -/
theorem RenderGCE_metadata_fingerprint_counterexample :
    (Find sampleDeps sampleCloudWithDisk sampleUnresolved).result = .ok (some sampleFound) ∧
    ({ Metadata := some [("k", .string "v")] } : Instance).Metadata ≠ none ∧
    (RenderGCE sampleDeps sampleCloudWithDisk (some sampleFound) sampleUnresolved
        { Metadata := some [("k", .string "v")] }).calls = [] ∧
    (RenderGCE sampleDeps sampleCloudWithDisk (some sampleFound) sampleUnresolved
        { Metadata := some [("k", .string "v")] }).result
      = .error (.error "instance IP address has not yet been created") := by
  refine ⟨rfl, by simp, rfl, rfl⟩

/-- C18, amended: `Find` records in the snapshot the fingerprint of the
metadata that the backend returned; and for every existing instance with
`changes.Metadata` set for which `mapToGCE` succeeds, `RenderGCE` makes
exactly one `SetMetadata` call, whose metadata has the fingerprint of the
snapshot and the items built from the metadata of the expected descriptor,
followed by a `WaitForOp` on the operation it started; `changes.Metadata` is
cleared exactly when that operation has been awaited successfully, and
`changes` is untouched otherwise. -/
theorem RenderGCE_metadata_fingerprint (deps : Deps) (cloud : gce.GCECloud)
    (a e changes : Instance) (i : compute.Instance) (hmd : changes.Metadata ≠ none)
    (hmap : mapToGCE deps cloud.Project RenderGCE.ipAddressResolver e = .ok i) :
    (∀ e' actual, (Find deps cloud e').result = .ok (some actual) →
      ∃ zone name r, e'.Zone = some zone ∧ e'.Name = some name ∧
        cloud.InstancesGet cloud.Project zone name = .ok r ∧
        ∀ m, r.Metadata = some m → actual.metadataFingerprint = m.Fingerprint) ∧
    ∃ zone items, e.Zone = some zone ∧
      mapToGCE.metadataItems deps (e.Metadata.getD []) = .ok items ∧
      (((RenderGCE deps cloud (some a) e changes).calls =
            [.InstancesSetMetadata cloud.Project zone i.Name
              { Items := items, Fingerprint := a.metadataFingerprint }] ∧
          ∃ err, cloud.InstancesSetMetadata cloud.Project zone i.Name
            { Items := items, Fingerprint := a.metadataFingerprint } = .error err) ∨
        ∃ op, (RenderGCE deps cloud (some a) e changes).calls =
            [.InstancesSetMetadata cloud.Project zone i.Name
              { Items := items, Fingerprint := a.metadataFingerprint }, .WaitForOp op] ∧
          cloud.InstancesSetMetadata cloud.Project zone i.Name
            { Items := items, Fingerprint := a.metadataFingerprint } = .ok op) ∧
      (RenderGCE deps cloud (some a) e changes).calls.filter Call.mutating =
        [.InstancesSetMetadata cloud.Project zone i.Name
          { Items := items, Fingerprint := a.metadataFingerprint }] ∧
      ((RenderGCE deps cloud (some a) e changes).changes.Metadata = none ↔
        ∃ op, cloud.InstancesSetMetadata cloud.Project zone i.Name
            { Items := items, Fingerprint := a.metadataFingerprint } = .ok op ∧
          cloud.WaitForOp op = .ok ()) ∧
      ((RenderGCE deps cloud (some a) e changes).changes.Metadata ≠ none →
        (RenderGCE deps cloud (some a) e changes).changes = changes) := by
  refine ⟨fun e' actual h => Find_fingerprint deps cloud e' actual h, ?_⟩
  obtain ⟨zone, _, _, _, _, items, _, _, _, hz, _, _, _, _, hitems, _, _, _, _, hmeta, _⟩ :=
    mapToGCE_ok deps _ _ e i hmap
  refine ⟨zone, items, hz, hitems, ?_⟩
  rw [RenderGCE_update_metadata deps cloud a e changes i zone items hz hmap hmeta hmd]
  cases hset : cloud.InstancesSetMetadata cloud.Project zone i.Name
      { Items := items, Fingerprint := a.metadataFingerprint } with
  | error err =>
    refine ⟨Or.inl ⟨rfl, err, rfl⟩, ?_, ?_, ?_⟩
    · simp [Call.mutating]
    · simp [hmd]
    · intro _
      rfl
  | ok op =>
    dsimp only
    cases hwait : cloud.WaitForOp op with
    | error err =>
      refine ⟨Or.inr ⟨op, rfl, rfl⟩, ?_, ?_, ?_⟩
      · simp [Call.mutating]
      · simp [hmd, hwait]
      · intro _
        rfl
    | ok u =>
      dsimp only
      cases ({ changes with Metadata := none } : Instance).isZero
      · refine ⟨Or.inr ⟨op, by simp, rfl⟩, ?_, ?_, ?_⟩
        · simp [Call.mutating]
        · simp [hwait]
        · simp
      · refine ⟨Or.inr ⟨op, by simp, rfl⟩, ?_, ?_, ?_⟩
        · simp [Call.mutating]
        · simp [hwait]
        · simp

/-- C18, amended, on the sample: `Find` returns a snapshot with the fingerprint
`fp` of the backend, and the one `SetMetadata` call that `RenderGCE` makes
for that snapshot carries this fingerprint and the item of the expected
metadata; the operation is awaited and `changes.Metadata` is cleared. -/
theorem RenderGCE_metadata_fingerprint_witness :
    (Find sampleDeps sampleCloudWithDisk sampleInstance).result = .ok (some sampleFound) ∧
    sampleFound.metadataFingerprint = "fp" ∧
    mapToGCE sampleDeps sampleCloudWithDisk.Project RenderGCE.ipAddressResolver sampleInstance
      = .ok sampleMapped ∧
    (RenderGCE sampleDeps sampleCloudWithDisk (some sampleFound) sampleInstance
        { Metadata := some [("k", .string "v")] }).calls =
      [ .InstancesSetMetadata "proj" "z" "vm"
          { Items := [{ Key := "k", Value := some "v" }], Fingerprint := "fp" },
        .WaitForOp { Name := "operation-metadata" } ] ∧
    (RenderGCE sampleDeps sampleCloudWithDisk (some sampleFound) sampleInstance
        { Metadata := some [("k", .string "v")] }).changes.Metadata = none ∧
    (∃ zone name r, sampleInstance.Zone = some zone ∧ sampleInstance.Name = some name ∧
      sampleCloudWithDisk.InstancesGet sampleCloudWithDisk.Project zone name = .ok r ∧
      ∀ m, r.Metadata = some m → sampleFound.metadataFingerprint = m.Fingerprint) ∧
    ∃ zone items, sampleInstance.Zone = some zone ∧
      mapToGCE.metadataItems sampleDeps (sampleInstance.Metadata.getD []) = .ok items ∧
      (RenderGCE sampleDeps sampleCloudWithDisk (some sampleFound) sampleInstance
          { Metadata := some [("k", .string "v")] }).calls.filter Call.mutating =
        [.InstancesSetMetadata sampleCloudWithDisk.Project zone sampleMapped.Name
          { Items := items, Fingerprint := sampleFound.metadataFingerprint }] :=
  have h := RenderGCE_metadata_fingerprint sampleDeps sampleCloudWithDisk sampleFound
    sampleInstance { Metadata := some [("k", .string "v")] } sampleMapped (by simp) rfl
  ⟨rfl, rfl, rfl, rfl, rfl, h.1 sampleInstance sampleFound rfl,
    match h.2 with
    | ⟨zone, items, hz, hitems, _, hfilter, _⟩ => ⟨zone, items, hz, hitems, hfilter⟩⟩

/-! ## Rendering for Terraform without tags -/

/-- C14 fails: the sample instance has its name, zone, image, machine type,
IP forwarding flag and network set, and no tags; `mapToGCE` returns an
instance without tags, and `RenderTerraform` dereferences `i.Tags`, which is
`nil`. The same instance with tags is rendered. The failure occurs for every
expected instance without tags for which `mapToGCE` succeeds. -/
theorem RenderTerraform_nil_tags :
    sampleInstance.Tags = none ∧
    (∃ i, RenderTerraform.i sampleDeps sampleTarget.Project sampleInstance = .ok i ∧
      i.Tags = none) ∧
    (RenderTerraform sampleDeps sampleTarget sampleInstance).result = .error .nilDereference ∧
    (RenderTerraform sampleDeps sampleTarget sampleInstance).resources = [] ∧
    (RenderTerraform sampleDeps sampleTarget sampleTagged).result = .ok () ∧
    ∀ (SA NI Lit : Type) (deps : Deps) (t : TerraformTarget SA NI Lit) (e : Instance)
      (i : compute.Instance), e.Tags = none → RenderTerraform.i deps t.Project e = .ok i →
      (RenderTerraform deps t e).result = .error .nilDereference ∧
        (RenderTerraform deps t e).resources = [] := by
  refine ⟨rfl, ⟨_, rfl, rfl⟩, rfl, rfl, rfl, ?_⟩
  intro SA NI Lit deps t e i htags hi
  obtain ⟨_, _, _, _, _, _, _, _, _, _, _, _, _, _, _, _, _, _, _, _, hitags, _⟩ :=
    mapToGCE_ok deps _ _ e i hi
  rw [htags] at hitags
  unfold RenderTerraform
  simp only [hi]
  simp only [Option.map_none'] at hitags
  simp [hitags]

end gcetasks
